import Mathlib

/-!
Verification development for the CitationImpact repository.

The Python modules `citationimpact/cache.py`, `citationimpact/clients/hybrid.py`
and `citationimpact/core/analyzer.py` are shallowly embedded below: pure string
helpers become Lean functions on `List Char` / `String`, the on-disk author
cache becomes an explicit record of association lists, timestamps become
integers (seconds), and Python floats are modelled as rationals.

Character-level primitives follow Python's ASCII behaviour (`str.lower`,
`str.split`, the regex classes `\w` and `\s`); Unicode-specific case mappings
are outside the model.
-/

namespace CitationImpact

/-- ASCII whitespace, as recognised by Python's `str.split()` / `str.strip()`
and the regex class `\s` (space, tab, newline, carriage return, vertical tab,
form feed). -/
def isPySpace (c : Char) : Bool :=
  c = ' ' || c = '\t' || c = '\n' || c = '\r' || c = '\x0b' || c = '\x0c'

/-- The regex class `\w`: letters, digits and underscore. -/
def isWordChar (c : Char) : Bool :=
  c.isAlphanum || c = '_'

/-- `str.lower()` on a single character. -/
def pyLower (l : List Char) : List Char := l.map Char.toLower

/-- `str.strip()`: remove leading and trailing whitespace. -/
def pyStrip (l : List Char) : List Char :=
  ((l.dropWhile isPySpace).reverse.dropWhile isPySpace).reverse

/-- Worker for `str.split()`: accumulates the current word (reversed) and
emits it at whitespace boundaries. -/
def pySplitGo : List Char → List Char → List (List Char)
  | [], cur => if cur.isEmpty then [] else [cur.reverse]
  | c :: cs, cur =>
    if isPySpace c then
      if cur.isEmpty then pySplitGo cs [] else cur.reverse :: pySplitGo cs []
    else pySplitGo cs (c :: cur)

/-- `str.split()` with no argument: split on whitespace runs, dropping empty
pieces. -/
def pySplit (l : List Char) : List (List Char) := pySplitGo l []

/-- `' '.join(words)`. -/
def joinSpace : List (List Char) → List Char
  | [] => []
  | [w] => w
  | w :: ws => w ++ ' ' :: joinSpace ws

/-- The stop words removed by `AuthorProfileCache._normalize_title`. -/
def titleStopwords : List (List Char) :=
  [['a'], ['a', 'n'], ['t', 'h', 'e'], ['o', 'f'], ['f', 'o', 'r'],
   ['i', 'n'], ['o', 'n'], ['t', 'o'], ['a', 'n', 'd'], ['w', 'i', 't', 'h']]

/-- Character filter of `re.sub(r'[^\w\s\-]', '', ·)`: keep word characters,
whitespace and hyphens (used by `_normalize_name`). -/
def nameKeep (c : Char) : Bool := isWordChar c || isPySpace c || c = '-'

/-- Character filter of `re.sub(r'[^\w\s]', '', ·)`: keep word characters and
whitespace (used by `_normalize_title`). -/
def titleKeep (c : Char) : Bool := isWordChar c || isPySpace c

/-- `AuthorProfileCache._normalize_name` on character lists:
lowercase, strip, remove characters outside `\w`, `\s`, `-`, then join the
whitespace-split words with single spaces. -/
def normalizeNameL (l : List Char) : List Char :=
  joinSpace (pySplit ((pyStrip (pyLower l)).filter nameKeep))

/-- `AuthorProfileCache._normalize_name` (`cache.py:319`). -/
def normalize_name (s : String) : String :=
  if s.isEmpty then "" else ⟨normalizeNameL s.data⟩

/-- `AuthorProfileCache._normalize_title` on character lists: lowercase,
strip, remove punctuation, normalise whitespace, drop stop words and keep the
first 10 significant words. -/
def normalizeTitleL (l : List Char) : List Char :=
  let normalized := joinSpace (pySplit ((pyStrip (pyLower l)).filter titleKeep))
  let words := (pySplit normalized).filter (fun w => decide (w ∉ titleStopwords))
  joinSpace (words.take 10)

/-- `AuthorProfileCache._normalize_title` (`cache.py:329`). -/
def normalize_title (s : String) : String :=
  if s.isEmpty then "" else ⟨normalizeTitleL s.data⟩

/-! ### The author profile cache (`cache.py`, class `AuthorProfileCache`)

The `author_info` dicts written by the hybrid client always carry the eleven
keys below; a missing or `None` entry behaves exactly like `""` (resp. `0`)
in every cache operation, so fields are modelled as total. -/

structure AuthorInfo where
  name : String
  affiliation : String
  institution_type : String
  google_scholar_id : String
  semantic_scholar_id : String
  orcid_id : String
  homepage : String
  h_index_source : String
  h_index : Nat
  works_count : Nat
  citation_count : Nat
deriving DecidableEq, Repr

/-- One iteration of the merge loop (`cache.py:496-498`) on a string field:
`if value and (not merged.get(key) or merged.get(key) == 'Unknown')`. -/
def mergeStr (existing incoming : String) : String :=
  if incoming ≠ "" ∧ (existing = "" ∨ existing = "Unknown") then incoming else existing

/-- The same loop iteration on a numeric field (`0` is falsy). -/
def mergeNat (existing incoming : Nat) : Nat :=
  if incoming ≠ 0 ∧ existing = 0 then incoming else existing

/-- `cache.py:493-503`: the field-by-field merge loop over `author_info.items()`
followed by the prefer-higher-h-index rule, which compares the incoming
`h_index` against the merged record and on success also copies the incoming
`h_index_source`. -/
def mergeProfiles (existing incoming : AuthorInfo) : AuthorInfo :=
  let loop : AuthorInfo := {
    name := mergeStr existing.name incoming.name
    affiliation := mergeStr existing.affiliation incoming.affiliation
    institution_type := mergeStr existing.institution_type incoming.institution_type
    google_scholar_id := mergeStr existing.google_scholar_id incoming.google_scholar_id
    semantic_scholar_id := mergeStr existing.semantic_scholar_id incoming.semantic_scholar_id
    orcid_id := mergeStr existing.orcid_id incoming.orcid_id
    homepage := mergeStr existing.homepage incoming.homepage
    h_index_source := mergeStr existing.h_index_source incoming.h_index_source
    h_index := mergeNat existing.h_index incoming.h_index
    works_count := mergeNat existing.works_count incoming.works_count
    citation_count := mergeNat existing.citation_count incoming.citation_count }
  if incoming.h_index > loop.h_index then
    { loop with h_index := incoming.h_index, h_index_source := incoming.h_index_source }
  else loop

/-- A publication dict: `pub.get('title', '') or pub.get('bib', {}).get('title', '')`. -/
structure Publication where
  title : String
  bib_title : String
deriving DecidableEq, Repr

def pubTitle (p : Publication) : String :=
  if p.title ≠ "" then p.title else p.bib_title

/-- `AuthorProfileCache._get_publication_keys` (`cache.py:343`): keys from the
first 10 publications whose normalised title is longer than 20 characters,
capped at 50 characters. -/
def get_publication_keys (pubs : List Publication) : List String :=
  (pubs.take 10).filterMap (fun p =>
    let title := pubTitle p
    if title ≠ "" then
      let norm := normalize_title title
      if norm.length > 20 then some ("pub:" ++ norm.take 50) else none
    else none)

/-- `AuthorProfileCache._get_lookup_keys` (`cache.py:357`). -/
def get_lookup_keys (info : AuthorInfo) : List String :=
  (if info.name ≠ "" then ["name:" ++ normalize_name info.name] else []) ++
  (if info.google_scholar_id ≠ "" then ["gs:" ++ info.google_scholar_id] else []) ++
  (if info.semantic_scholar_id ≠ "" then ["s2:" ++ info.semantic_scholar_id] else []) ++
  (if info.orcid_id ≠ "" then ["orcid:" ++ info.orcid_id] else [])

/-- A parsed profile file: `cached_at` timestamp (seconds) and the
`profile.author_info` / `profile.publications` payload; `authorInfo = none`
models a file whose JSON lacks a usable `author_info`. -/
structure ProfileFile where
  cachedAt : Int
  authorInfo : Option AuthorInfo
  pubTitles : List String
deriving DecidableEq, Repr

/-- Cache state: the `_index.json` mapping (insertion-ordered, as a Python
dict) and the cache directory; a `none` file is present but unparseable. -/
structure CacheState where
  index : List (String × String)
  files : List (String × Option ProfileFile)
deriving DecidableEq, Repr

/-- Dict lookup on an association list. -/
def alookup {α : Type} (l : List (String × α)) (k : String) : Option α :=
  (l.find? (fun p => p.1 = k)).map (fun p => p.2)

/-- Dict assignment: overwriting keeps the key's original position, as a
Python dict does. -/
def ainsert {α : Type} (l : List (String × α)) (k : String) (v : α) : List (String × α) :=
  if l.any (fun p => p.1 = k) then
    l.map (fun p => if p.1 = k then (k, v) else p)
  else l ++ [(k, v)]

/-- File deletion (`Path.unlink`). -/
def aerase {α : Type} (l : List (String × α)) (k : String) : List (String × α) :=
  l.filter (fun p => decide (p.1 ≠ k))

/-- `self.max_age_days = 30`, in seconds. -/
def maxAgeSeconds : Int := 30 * 86400

/-- One step of the `get_by_any_id` scan (`cache.py:441-456`): `some r` when
the key hits the index, the file exists, parses, and is fresh (`r` is then
returned by the Python loop, even when the stored `author_info` is missing);
`none` when the scan continues past this key. -/
def freshHit (now : Int) (st : CacheState) (key : String) : Option (Option AuthorInfo) :=
  match alookup st.index key with
  | none => none
  | some filename =>
    match alookup st.files filename with
    | none => none
    | some none => none
    | some (some pf) =>
      if now - pf.cachedAt ≤ maxAgeSeconds then some pf.authorInfo else none

/-- The ordered key list built by `get_by_any_id` (`cache.py:424-438`). -/
def gbaiKeys (name gs s2 orcid : String) (pubs : List Publication) : List String :=
  (if gs ≠ "" then ["gs:" ++ gs] else []) ++
  (if s2 ≠ "" then ["s2:" ++ s2] else []) ++
  (if orcid ≠ "" then ["orcid:" ++ orcid] else []) ++
  (if name ≠ "" then ["name:" ++ normalize_name name] else []) ++
  (if pubs ≠ [] then get_publication_keys pubs else [])

/-- `AuthorProfileCache.get_by_any_id` (`cache.py:403`); absent arguments are
`""` / `[]` (Python falsy). -/
def get_by_any_id (now : Int) (st : CacheState)
    (name gs s2 orcid : String) (pubs : List Publication) : Option AuthorInfo :=
  ((gbaiKeys name gs s2 orcid pubs).findSome? (freshHit now st)).join

/-- `AuthorProfileCache.get` (`cache.py:605`), the legacy direct key lookup:
returns the parsed profile and the possibly-updated cache directory; an
expired or corrupted file is unlinked on access. -/
def cache_get (now : Int) (st : CacheState) (filename : String) :
    Option ProfileFile × CacheState :=
  match alookup st.files filename with
  | none => (none, st)
  | some none => (none, { st with files := aerase st.files filename })
  | some (some pf) =>
    if now - pf.cachedAt ≤ maxAgeSeconds then (some pf, st)
    else (none, { st with files := aerase st.files filename })

/-- `profile_matches[profile_file] = profile_matches.get(profile_file, 0) + 1`. -/
def bumpCount (l : List (String × Nat)) (k : String) : List (String × Nat) :=
  if l.any (fun p => p.1 = k) then
    l.map (fun p => if p.1 = k then (p.1, p.2 + 1) else p)
  else l ++ [(k, 1)]

/-- The match-counting loop of `find_by_publications` (`cache.py:577-580`). -/
def countMatches (index : List (String × String)) (keys : List String) :
    List (String × Nat) :=
  keys.foldl (fun acc k =>
    match alookup index k with
    | some fn => bumpCount acc fn
    | none => acc) []

/-- The best-profile selection loop of `find_by_publications`
(`cache.py:583-588`): highest count wins, ties keep the earlier entry. -/
def selectBest (ms : List (String × Nat)) (minOverlap : Nat) :
    Option String × Nat :=
  ms.foldl (fun acc p =>
    if p.2 ≥ minOverlap ∧ p.2 > acc.2 then (some p.1, p.2) else acc) (none, 0)

/-- `AuthorProfileCache.find_by_publications` (`cache.py:549`). -/
def find_by_publications (st : CacheState) (pubs : List Publication)
    (minOverlap : Nat) : Option AuthorInfo :=
  if pubs = [] then none
  else if (get_publication_keys pubs).length < minOverlap then none
  else
    match (selectBest (countMatches st.index (get_publication_keys pubs)) minOverlap).1 with
    | none => none
    | some fn =>
      match alookup st.files fn with
      | some (some pf) => pf.authorInfo
      | _ => none

/-- A JSON string literal; the inputs exercised here contain no characters
needing escapes, so escaping is not modelled. -/
def jsonString (s : String) : String := "\"" ++ s ++ "\""

/-- `json.dumps(author_info, sort_keys=True)`: keys in alphabetical order
with the default `', '` / `': '` separators. -/
def jsonDump (info : AuthorInfo) : String :=
  "\x7b\"affiliation\": " ++ jsonString info.affiliation ++
  ", \"citation_count\": " ++ toString info.citation_count ++
  ", \"google_scholar_id\": " ++ jsonString info.google_scholar_id ++
  ", \"h_index\": " ++ toString info.h_index ++
  ", \"h_index_source\": " ++ jsonString info.h_index_source ++
  ", \"homepage\": " ++ jsonString info.homepage ++
  ", \"institution_type\": " ++ jsonString info.institution_type ++
  ", \"name\": " ++ jsonString info.name ++
  ", \"orcid_id\": " ++ jsonString info.orcid_id ++
  ", \"semantic_scholar_id\": " ++ jsonString info.semantic_scholar_id ++
  ", \"works_count\": " ++ toString info.works_count ++ "\x7d"

/-- Stand-in for `hashlib.md5(·).hexdigest()[:12]`: a deterministic function
of the serialised record.  The claims settled here depend only on which
snapshot is hashed and on hash determinism, so the digest is modelled as the
serialised string itself (md5 collisions are not modelled). -/
def md5hex12 (s : String) : String := s

/-- The content-addressed profile filename of `cache.py:506-509`. -/
def profileFilename (info : AuthorInfo) : String :=
  "profile_" ++ md5hex12 (jsonDump info) ++ ".json"

/-- The `existing` profile found by `update_profile` (`cache.py:482-491`):
first `get_by_any_id` on the IDs/name (no publications), then — only when
that fails and publications were supplied — `find_by_publications` with the
default `min_overlap=2`. -/
def existingFor (now : Int) (st : CacheState) (info : AuthorInfo)
    (pubs : List Publication) : Option AuthorInfo :=
  match get_by_any_id now st info.name info.google_scholar_id
      info.semantic_scholar_id info.orcid_id [] with
  | some e => some e
  | none => if pubs ≠ [] then find_by_publications st pubs 2 else none

/-- The record actually written by `update_profile`: the merge result when an
existing profile was found, the incoming record otherwise. -/
def mergedInfo (now : Int) (st : CacheState) (info : AuthorInfo)
    (pubs : List Publication) : AuthorInfo :=
  match existingFor now st info pubs with
  | some e => mergeProfiles e info
  | none => info

/-- The filename `update_profile` writes to. -/
def updateFilename (now : Int) (st : CacheState) (info : AuthorInfo)
    (pubs : List Publication) : String :=
  profileFilename (mergedInfo now st info pubs)

/-- The publication titles stored alongside the profile (`cache.py:512-517`). -/
def storedTitles (pubs : List Publication) : List String :=
  (pubs.take 20).filterMap (fun p => if pubTitle p ≠ "" then some (pubTitle p) else none)

/-- `AuthorProfileCache.update_profile` (`cache.py:460`): merge, write the
profile file under the content-addressed name, then point every lookup key
and publication key at it. -/
def update_profile (now : Int) (st : CacheState) (info : AuthorInfo)
    (pubs : List Publication) : CacheState :=
  { index := (get_lookup_keys (mergedInfo now st info pubs) ++
        get_publication_keys pubs).foldl
      (fun ix k => ainsert ix k (updateFilename now st info pubs)) st.index,
    files := ainsert st.files (updateFilename now st info pubs)
      (some ⟨now, some (mergedInfo now st info pubs), storedTitles pubs⟩) }

/-! ### Canonical form of the `find_by_publications` counting loop -/

/-- How many of the derived keys the index maps to profile file `fn`. -/
def countOf (ix : List (String × String)) (keys : List String) (fn : String) : Nat :=
  keys.countP (fun k => decide (alookup ix k = some fn))

/-- The candidate profile files in the order they are first encountered while
scanning `keys` against the index. -/
def firstOccurrences (ix : List (String × String)) : List String → List String
  | [] => []
  | k :: ks =>
    match alookup ix k with
    | none => firstOccurrences ix ks
    | some fn => fn :: (firstOccurrences ix ks).filter (fun x => decide (x ≠ fn))

/-! ### Claim C1: the `update_profile` merge -/

/-- An author record with only the fields of interest set; all others empty. -/
def baseInfo (nm src : String) (h : Nat) : AuthorInfo :=
  { name := nm, affiliation := "", institution_type := "", google_scholar_id := "",
    semantic_scholar_id := "", orcid_id := "", homepage := "",
    h_index_source := src, h_index := h, works_count := 0, citation_count := 0 }

def c2Info : AuthorInfo := baseInfo "alice" "google_scholar" 12

def c2Pubs : List Publication :=
  [⟨"comprehensive empirical study one", ""⟩, ⟨"comprehensive empirical study two", ""⟩]

def c2State : CacheState :=
  { index := [("pub:comprehensive empirical study one", "profileA.json"),
              ("pub:comprehensive empirical study two", "profileA.json")],
    files := [("profileA.json", some ⟨0, some c2Info, []⟩)] }

def c10Pubs : List Publication := [⟨"tiny paper", ""⟩, ⟨"short", ""⟩]

def c10State : CacheState :=
  { index := [("name:bob jones", "profileB.json")],
    files := [("profileB.json", some ⟨0, some (baseInfo "bob jones" "semantic_scholar" 3), []⟩)] }

def c3InfoOld : AuthorInfo := baseInfo "carol davis" "semantic_scholar" 7

def c3InfoNew : AuthorInfo := baseInfo "carol davis" "google_scholar" 9

def c3State : CacheState :=
  { index := [("gs:GSID1", "old.json"), ("name:carol davis", "new.json")],
    files := [("old.json", some ⟨0, some c3InfoOld, []⟩),
              ("new.json", some ⟨2592000, some c3InfoNew, []⟩)] }

def c7Info1 : AuthorInfo := baseInfo "alice smith" "semantic_scholar" 10

def c7Info2 : AuthorInfo := baseInfo "alice smith" "google_scholar" 8

/-! ### The hybrid client (`clients/hybrid.py`)

`hybrid._normalize_title` differs from the cache version: no `strip()`, no
stop-word removal, no truncation.  `_titles_match` compares normalised titles
for equality and falls back to `difflib.SequenceMatcher(None, ·, ·).ratio()`,
modelled below over rationals (CPython floats are exactly representable for
the sizes involved in the claims settled here). -/

/-- `hybrid._normalize_title` on character lists (`hybrid.py:36`). -/
def normalizeTitleHL (l : List Char) : List Char :=
  joinSpace (pySplit ((pyLower l).filter titleKeep))

/-- `hybrid._normalize_title` (`hybrid.py:36`). -/
def hybrid_normalize_title (s : String) : String :=
  if s.isEmpty then "" else ⟨normalizeTitleHL s.data⟩

/-- The ascending positions of `c` in `b` (the `b2j` table entries). -/
def charPositions (b : List Char) (c : Char) : List Nat :=
  (b.enum.filter (fun p => decide (p.2 = c))).map Prod.fst

/-- CPython's autojunk heuristic: for `len(b) >= 200`, characters occupying
more than 1% of `b` are dropped from `b2j`. -/
def isPopular (b : List Char) (c : Char) : Bool :=
  decide (200 ≤ b.length) && decide (b.length / 100 + 1 < b.count c)

/-- `self.b2j.get(a[i], [])` with `isjunk=None` and autojunk applied. -/
def b2jGet (b : List Char) (c : Char) : List Nat :=
  if isPopular b c then [] else charPositions b c

/-- A matching block `(i, j, size)`. -/
structure SMatch where
  i : Nat
  j : Nat
  size : Nat
deriving DecidableEq, Repr

/-- `j2len.get(j - 1, 0)` (with Python's `-1` never present as a key). -/
def j2lenGet (l : List (Nat × Nat)) (j : Nat) : Nat :=
  match l.find? (fun p => decide (p.1 = j)) with
  | some p => p.2
  | none => 0

/-- The dynamic-programming core of `find_longest_match`: one row per `i`,
reading the previous row `j2len` and recording the best block seen. -/
def flmRow (a b : List Char) (blo bhi : Nat)
    (st : List (Nat × Nat) × SMatch) (i : Nat) : List (Nat × Nat) × SMatch :=
  let js := ((b2jGet b (a.getD i ' ')).filter (fun j => decide (blo ≤ j))).takeWhile
    (fun j => decide (j < bhi))
  js.foldl (fun (st2 : List (Nat × Nat) × SMatch) j =>
    let k := (if j = 0 then 0 else j2lenGet st.1 (j - 1)) + 1
    let best := if k > st2.2.size then ⟨i + 1 - k, j + 1 - k, k⟩ else st2.2
    ((j, k) :: st2.1, best)) ([], st.2)

/-- The while-loop extending the best block leftwards over equal characters
(no junk with `isjunk=None`); fuel bounds the iteration count. -/
def extendLeft (a b : List Char) (alo blo : Nat) : Nat → SMatch → SMatch
  | 0, m => m
  | fuel + 1, m =>
    if alo < m.i ∧ blo < m.j ∧ a.getD (m.i - 1) ' ' = b.getD (m.j - 1) ' ' then
      extendLeft a b alo blo fuel ⟨m.i - 1, m.j - 1, m.size + 1⟩
    else m

/-- The while-loop extending the best block rightwards. -/
def extendRight (a b : List Char) (ahi bhi : Nat) : Nat → SMatch → SMatch
  | 0, m => m
  | fuel + 1, m =>
    if m.i + m.size < ahi ∧ m.j + m.size < bhi ∧
        a.getD (m.i + m.size) ' ' = b.getD (m.j + m.size) ' ' then
      extendRight a b ahi bhi fuel ⟨m.i, m.j, m.size + 1⟩
    else m

/-- `SequenceMatcher.find_longest_match` on the range
`a[alo:ahi]`, `b[blo:bhi]`. -/
def find_longest_match (a b : List Char) (alo ahi blo bhi : Nat) : SMatch :=
  let dp := (List.range' alo (ahi - alo)).foldl (flmRow a b blo bhi) ([], ⟨alo, blo, 0⟩)
  extendRight a b ahi bhi bhi (extendLeft a b alo blo dp.2.i dp.2)

/-- Total size of all matching blocks (the recursion of
`get_matching_blocks`); the fuel exceeds the maximal recursion depth. -/
def totalMatchedFuel (a b : List Char) : Nat → Nat → Nat → Nat → Nat → Nat
  | 0, _, _, _, _ => 0
  | fuel + 1, alo, ahi, blo, bhi =>
    let m := find_longest_match a b alo ahi blo bhi
    if m.size = 0 then 0
    else
      totalMatchedFuel a b fuel alo m.i blo m.j + m.size +
        totalMatchedFuel a b fuel (m.i + m.size) ahi (m.j + m.size) bhi

def totalMatched (a b : List Char) : Nat :=
  totalMatchedFuel a b (a.length + b.length + 1) 0 a.length 0 b.length

/-- `SequenceMatcher(None, a, b).ratio()`: `2.0 * matches / (len(a) + len(b))`,
and `1.0` for two empty sequences. -/
def smRatio (a b : List Char) : ℚ :=
  if a.length + b.length = 0 then 1
  else 2 * (totalMatched a b : ℚ) / ((a.length : ℚ) + (b.length : ℚ))

/-- `hybrid._titles_match` (`hybrid.py:48`), threshold as a rational. -/
def titles_match (t1 t2 : String) (threshold : ℚ) : Bool :=
  if (hybrid_normalize_title t1).isEmpty || (hybrid_normalize_title t2).isEmpty then false
  else if hybrid_normalize_title t1 = hybrid_normalize_title t2 then true
  else decide (smRatio (hybrid_normalize_title t1).data (hybrid_normalize_title t2).data ≥
    threshold)

/-! ### Claim C4: `search_paper` source priority -/

/-- A paper search result (the dict fields used by `search_paper`). -/
structure Paper where
  paperId : String
  title : String
  citationCount : Nat
  influentialCitationCount : Nat
deriving DecidableEq, Repr

/-- `HybridAPIClient.search_paper` (`hybrid.py:160`): the primary result is
accepted outright at ≥ 10 citations; the secondary (Google Scholar) client is
consulted only under `not s2_paper`; the final `return s2_paper` covers the
rest.  The boolean records whether the secondary source was queried
(`gs_client.search_paper` called). -/
def search_paper (s2_paper : Option Paper) (gs_available : Bool)
    (gs_result : Option Paper) : Option Paper × Bool :=
  match s2_paper with
  | some p =>
    if p.citationCount ≥ 10 then (some p, false)
    else (some p, false)
  | none =>
    if gs_available then
      match gs_result with
      | some g => (some g, true)
      | none => (none, true)
    else (none, false)

def c4LowPaper : Paper := ⟨"P1", "low cited paper", 5, 0⟩

def c4GsPaper : Paper := ⟨"G1", "gs paper", 50, 4⟩

/-! ### Claim C5: the `get_citations` merge of secondary citations -/

/-- A citation record (`models/data_models.py:93`, fields used by the merge
and analysis paths). -/
structure Citation where
  citing_paper_title : String
  citing_authors : List String
  venue : String
  year : Int
  is_influential : Bool
  citation_count : Nat
deriving DecidableEq, Repr

/-- Normalised title of a citation (`_normalize_title(citation.citing_paper_title)`). -/
def citNorm (c : Citation) : String := hybrid_normalize_title c.citing_paper_title

/-- One iteration of the Google Scholar merge loop (`hybrid.py:274-287`):
skip duplicates of any seen title, append only while below `limit`, and
record the appended citation's normalised title as seen. -/
def mergeGsStep (limit : Nat) (acc : List Citation × List String) (g : Citation) :
    List Citation × List String :=
  if ¬ (acc.2.any (fun seen => titles_match (citNorm g) seen (85/100))) ∧
      acc.1.length < limit then
    (acc.1 ++ [g], acc.2 ++ [citNorm g])
  else acc

/-- The merging portion of `HybridAPIClient.get_citations`
(`hybrid.py:224-293`): primary (Semantic Scholar) citations seed the list and
the seen-title set, then secondary (Google Scholar) citations are folded in. -/
def get_citations_merge (primary secondary : List Citation) (limit : Nat) :
    List Citation × List String :=
  secondary.foldl (mergeGsStep limit) (primary, primary.map citNorm)

/-- Invariant of the merge loop: the primary list is a prefix, every
appended citation clashes with no primary title, the seen set mirrors the
accumulated list, and the length never exceeds `max |primary| limit`. -/
def mergeInv (primary : List Citation) (limit : Nat)
    (acc : List Citation × List String) : Prop :=
  (∃ app, acc.1 = primary ++ app ∧
    ∀ g ∈ app, ∀ p ∈ primary, titles_match (citNorm g) (citNorm p) (85/100) = false) ∧
  acc.2 = acc.1.map citNorm ∧
  acc.1.length ≤ max primary.length limit

/-- A citation carrying only a title (the other fields defaulted). -/
def mkCit (t : String) : Citation := ⟨t, [], "", 0, false, 0⟩

/-! ### The analyzer (`core/analyzer.py`) — claim C6

The result dicts are modelled by a small JSON-like value type; the expensive
analysis pipelines only matter for C6 through the key structure of their
return dicts, so their leaf values are abstracted as parameters while the
keys are transcribed from the `return` statements. -/

inductive JVal where
  | s : String → JVal
  | i : Int → JVal
  | q : ℚ → JVal
  | b : Bool → JVal
  | null : JVal
  | arr : List JVal → JVal
  | obj : List (String × JVal) → JVal

/-- Top-level keys of a JSON object. -/
def jKeys : JVal → List String
  | .obj kvs => kvs.map Prod.fst
  | _ => []

/-- Field access on a JSON object. -/
def jGet : JVal → String → Option JVal
  | .obj kvs, k => alookup kvs k
  | _, _ => none

/-- The error message chosen at `analyzer.py:99-107`: the data-source name
for Google Scholar, otherwise `api.last_error` when truthy with a fixed
fallback. -/
def errorMessageFor (dataSource : String) (lastError : Option String) : String :=
  if dataSource = "google_scholar" then "Paper not found on Google Scholar"
  else
    match lastError with
    | some e => if e = "" then "Paper not found on Semantic Scholar" else e
    | none => "Paper not found on Semantic Scholar"

/-- `CitationImpactAnalyzer._empty_result` (`analyzer.py:161`), transcribed
literally. -/
def empty_result (title errorMsg : String) (totalCites influentialCites : Int) : JVal :=
  .obj [
    ("paper_title", .s title),
    ("total_citations", .i totalCites),
    ("influential_citations_count", .i influentialCites),
    ("analyzed_citations", .i 0),
    ("error", .s errorMsg),
    ("all_authors", .arr []),
    ("high_profile_scholars", .arr []),
    ("institutions", .obj [("University", .i 0), ("Industry", .i 0),
      ("Government", .i 0), ("Other", .i 0), ("details", .obj [])]),
    ("venues", .obj [("total", .i 0), ("unique", .i 0), ("top_tier_count", .i 0),
      ("top_tier_percentage", .q 0), ("most_common", .arr []), ("rankings", .obj [])]),
    ("influential_citations", .arr []),
    ("methodological_citations", .arr []),
    ("yearly_stats", .arr []),
    ("impact_stats", .obj [
      ("highly_cited_citing_papers", .arr []),
      ("citation_thresholds", .obj [("over_1000", .i 0), ("over_500", .i 0),
        ("over_100", .i 0), ("over_50", .i 0)]),
      ("author_stats", .obj [("total_unique_authors", .i 0),
        ("high_profile_count", .i 0), ("max_h_index", .i 0), ("avg_h_index", .i 0),
        ("h_over_50", .i 0), ("h_over_30", .i 0), ("h_over_20", .i 0)]),
      ("institution_stats", .obj [("university_percentage", .i 0),
        ("industry_percentage", .i 0), ("from_qs_top_50", .i 0),
        ("from_qs_top_100", .i 0), ("from_qs_top_200", .i 0)]),
      ("recent_citations_count", .i 0),
      ("summary_statements", .arr [])])]

/-- Keys of `_analyze_authors`'s return dict (`analyzer.py:625-635`), leaf
values abstracted. -/
def analyzeAuthorsResult (allAuthors highProfile university industry government
    other details : JVal) : List (String × JVal) :=
  [("all_authors", allAuthors),
   ("high_profile_scholars", highProfile),
   ("institutions", .obj [("University", university), ("Industry", industry),
     ("Government", government), ("Other", other), ("details", details)])]

/-- Keys of `_analyze_venues`'s return dict (`analyzer.py:689-698`). -/
def analyzeVenuesResult (total unique topTierCount topTierPct mostCommon
    rankings : JVal) : List (String × JVal) :=
  [("venues", .obj [("total", total), ("unique", unique),
    ("top_tier_count", topTierCount), ("top_tier_percentage", topTierPct),
    ("most_common", mostCommon), ("rankings", rankings)])]

/-- Keys of `_analyze_influence`'s return dict (`analyzer.py:717-720`). -/
def analyzeInfluenceResult (influential methodological : JVal) :
    List (String × JVal) :=
  [("influential_citations", influential), ("methodological_citations", methodological)]

/-- Keys of `_analyze_years`'s return dict (`analyzer.py:203-209`). -/
def analyzeYearsResult (yearlyStats : JVal) : List (String × JVal) :=
  [("yearly_stats", yearlyStats)]

/-- Keys of `_analyze_impact_stats`'s return dict (`analyzer.py:292-301`). -/
def impactStatsResult (highlyCited ct1000 ct500 ct100 ct50 totalUnique highCount
    maxH avgH h50 h30 h20 univPct indPct qs50 qs100 qs200 recent
    statements : JVal) : JVal :=
  .obj [
    ("highly_cited_citing_papers", highlyCited),
    ("citation_thresholds", .obj [("over_1000", ct1000), ("over_500", ct500),
      ("over_100", ct100), ("over_50", ct50)]),
    ("author_stats", .obj [("total_unique_authors", totalUnique),
      ("high_profile_count", highCount), ("max_h_index", maxH), ("avg_h_index", avgH),
      ("h_over_50", h50), ("h_over_30", h30), ("h_over_20", h20)]),
    ("institution_stats", .obj [("university_percentage", univPct),
      ("industry_percentage", indPct), ("from_qs_top_50", qs50),
      ("from_qs_top_100", qs100), ("from_qs_top_200", qs200)]),
    ("recent_citations_count", recent),
    ("summary_statements", statements)]

/-- The success-path result assembled at `analyzer.py:145-156`. -/
def analyzeResultSuccess (paperTitle : String)
    (totalCitations influentialCitations analyzedCount : JVal)
    (authorsData venueData influenceData yearData : List (String × JVal))
    (impactStats : JVal) : JVal :=
  .obj ([("paper_title", .s paperTitle),
    ("total_citations", totalCitations),
    ("influential_citations_count", influentialCitations),
    ("analyzed_citations", analyzedCount),
    ("error", .null)] ++
    authorsData ++ venueData ++ influenceData ++ yearData ++
    [("impact_stats", impactStats)])

/-- `CitationImpactAnalyzer.analyze_paper` after paper resolution
(`analyzer.py:96-159`): the not-found branch, the no-citations branch, and
the success branch (the analysis pipelines abstracted into the parameters of
the success shape). -/
def analyze_paper (dataSource : String) (lastError : Option String)
    (paperTitle : String) (paper : Option Paper) (citations : List Citation)
    (totalCitations influentialCitations analyzedCount : JVal)
    (authorsData venueData influenceData yearData : List (String × JVal))
    (impactStats : JVal) : JVal :=
  match paper with
  | none => empty_result paperTitle (errorMessageFor dataSource lastError) 0 0
  | some p =>
    if citations = [] then
      empty_result p.title "No citations found. Paper may be too new or not indexed."
        (p.citationCount : Int) (p.influentialCitationCount : Int)
    else
      analyzeResultSuccess p.title totalCitations influentialCitations analyzedCount
        authorsData venueData influenceData yearData impactStats

/-! ### Properties of the string primitives -/

theorem toLower_toNat_of_upper (c : Char) (h : 65 ≤ c.toNat ∧ c.toNat ≤ 90) :
    c.toLower.toNat = c.toNat + 32 := by
  have hv : (c.toNat + 32).isValidChar := Or.inl (by omega)
  simp only [Char.toLower, if_pos h]
  rw [Char.ofNat, dif_pos hv]
  rfl

theorem toLower_eq_self (c : Char) (h : ¬ (65 ≤ c.toNat ∧ c.toNat ≤ 90)) :
    c.toLower = c := by
  simp only [Char.toLower, if_neg h]

theorem toLower_idem (c : Char) : c.toLower.toLower = c.toLower := by
  by_cases h : 65 ≤ c.toNat ∧ c.toNat ≤ 90
  · have h2 := toLower_toNat_of_upper c h
    exact toLower_eq_self _ (by omega)
  · rw [toLower_eq_self c h, toLower_eq_self c h]

/-- Words produced by `pySplitGo` are nonempty, whitespace-free, and their
characters come from the input or the accumulator. -/
theorem pySplitGo_mem (l : List Char) :
    ∀ cur, (∀ c ∈ cur, isPySpace c = false) →
    ∀ w ∈ pySplitGo l cur, w ≠ [] ∧ ∀ c ∈ w, isPySpace c = false ∧ (c ∈ l ∨ c ∈ cur) := by
  induction l with
  | nil =>
    intro cur hcur w hw
    simp only [pySplitGo] at hw
    by_cases hc : cur.isEmpty
    · simp [hc] at hw
    · simp only [hc, if_neg] at hw
      simp only [Bool.false_eq_true, if_false, List.mem_singleton] at hw
      subst hw
      refine ⟨by simpa using fun h => hc (by simp [h, List.isEmpty_iff]), ?_⟩
      intro c hc2
      rw [List.mem_reverse] at hc2
      exact ⟨hcur c hc2, Or.inr hc2⟩
  | cons a as ih =>
    intro cur hcur w hw
    simp only [pySplitGo] at hw
    by_cases ha : isPySpace a
    · simp only [ha, if_pos] at hw
      by_cases hc : cur.isEmpty
      · simp only [hc, if_pos] at hw
        have := ih [] (by simp) w hw
        exact ⟨this.1, fun c h => ⟨(this.2 c h).1, by
          rcases (this.2 c h).2 with h' | h'
          · exact Or.inl (List.mem_cons_of_mem _ h')
          · simp at h'⟩⟩
      · simp only [hc, Bool.false_eq_true, if_false, List.mem_cons] at hw
        rcases hw with hw | hw
        · subst hw
          refine ⟨by simpa using fun h => hc (by simp [h, List.isEmpty_iff]), ?_⟩
          intro c hc2
          rw [List.mem_reverse] at hc2
          exact ⟨hcur c hc2, Or.inr hc2⟩
        · have := ih [] (by simp) w hw
          exact ⟨this.1, fun c h => ⟨(this.2 c h).1, by
            rcases (this.2 c h).2 with h' | h'
            · exact Or.inl (List.mem_cons_of_mem _ h')
            · simp at h'⟩⟩
    · simp only [ha, Bool.false_eq_true, if_false] at hw
      have := ih (a :: cur) (by
        intro c hc
        rcases List.mem_cons.mp hc with h | h
        · subst h; simpa using ha
        · exact hcur c h) w hw
      refine ⟨this.1, fun c h => ⟨(this.2 c h).1, ?_⟩⟩
      rcases (this.2 c h).2 with h' | h'
      · exact Or.inl (List.mem_cons_of_mem _ h')
      · rcases List.mem_cons.mp h' with h'' | h''
        · exact Or.inl (by simp [h''])
        · exact Or.inr h''

/-- Consuming a whitespace-free word pushes it (reversed) onto the
accumulator. -/
theorem pySplitGo_word (w : List Char) (hw : ∀ c ∈ w, isPySpace c = false) :
    ∀ rest cur, pySplitGo (w ++ rest) cur = pySplitGo rest (w.reverse ++ cur) := by
  induction w with
  | nil => intro rest cur; simp
  | cons a as ih =>
    intro rest cur
    have ha : isPySpace a = false := hw a (by simp)
    simp only [List.cons_append, pySplitGo, ha, Bool.false_eq_true, if_false, List.append_eq]
    rw [ih (fun c h => hw c (by simp [h])) rest (a :: cur)]
    simp

/-- All-whitespace input flushes the accumulator. -/
theorem pySplitGo_spaces (s : List Char) (hs : ∀ c ∈ s, isPySpace c = true) :
    ∀ cur, pySplitGo s cur = if cur.isEmpty then [] else [cur.reverse] := by
  induction s with
  | nil => intro cur; simp [pySplitGo]
  | cons a as ih =>
    intro cur
    have ha : isPySpace a = true := hs a (by simp)
    simp only [pySplitGo, ha, if_pos]
    by_cases hc : cur.isEmpty
    · simp [hc, ih (fun c h => hs c (by simp [h]))]
    · simp [hc, ih (fun c h => hs c (by simp [h]))]

/-- A leading run of whitespace is ignored by `split()`. -/
theorem pySplitGo_spaces_leading (s : List Char) (hs : ∀ c ∈ s, isPySpace c = true)
    (rest : List Char) : pySplitGo (s ++ rest) [] = pySplitGo rest [] := by
  induction s with
  | nil => simp
  | cons a as ih =>
    have ha : isPySpace a = true := hs a (by simp)
    simp only [List.cons_append, pySplitGo, ha, if_pos, List.isEmpty_nil, if_true]
    exact ih (fun c h => hs c (by simp [h]))

/-- A trailing run of whitespace is ignored by `split()`. -/
theorem pySplitGo_spaces_suffix (s : List Char) (hs : ∀ c ∈ s, isPySpace c = true) :
    ∀ x cur, pySplitGo (x ++ s) cur = pySplitGo x cur := by
  intro x
  induction x with
  | nil =>
    intro cur
    rw [List.nil_append, pySplitGo_spaces s hs cur]
    simp [pySplitGo]
  | cons a as ih =>
    intro cur
    by_cases ha : isPySpace a
    · by_cases hc : cur.isEmpty
      · simp only [List.cons_append, pySplitGo, ha, if_pos, hc, if_true]
        exact ih []
      · simp only [List.cons_append, pySplitGo, ha, if_pos, hc, Bool.false_eq_true, if_false,
          List.append_eq]
        rw [ih []]
    · simp only [List.cons_append, pySplitGo, ha, Bool.false_eq_true, if_false]
      exact ih (a :: cur)

/-- `split()` round-trips with `' '.join` on nonempty whitespace-free words. -/
theorem pySplit_joinSpace (ws : List (List Char))
    (h : ∀ w ∈ ws, w ≠ [] ∧ ∀ c ∈ w, isPySpace c = false) :
    pySplit (joinSpace ws) = ws := by
  induction ws with
  | nil => simp [pySplit, joinSpace, pySplitGo]
  | cons w ws ih =>
    rcases ws with _ | ⟨w', ws'⟩
    · have hw := h w (by simp)
      simp only [joinSpace, pySplit]
      have := pySplitGo_word w hw.2 [] []
      simp only [List.append_nil] at this
      rw [this]
      simp only [pySplitGo, List.append_nil]
      have : ¬ w.reverse.isEmpty := by
        simp [List.isEmpty_iff, hw.1]
      simp [this]
    · have hw := h w (by simp)
      have hjoin : joinSpace (w :: w' :: ws') = w ++ ' ' :: joinSpace (w' :: ws') := rfl
      simp only [pySplit, hjoin]
      rw [pySplitGo_word w hw.2 _ []]
      simp only [List.append_nil, pySplitGo, isPySpace]
      have hne : ¬ w.reverse.isEmpty := by
        simp [List.isEmpty_iff, hw.1]
      simp only [if_pos, hne, Bool.false_eq_true, if_false, List.reverse_reverse]
      have := ih (fun u hu => h u (by simp [hu]))
      simp only [pySplit] at this
      simp_all

/-- Characters of a joined word list are word characters or the joining
space. -/
theorem mem_joinSpace (ws : List (List Char)) (c : Char) (h : c ∈ joinSpace ws) :
    (∃ w ∈ ws, c ∈ w) ∨ c = ' ' := by
  induction ws with
  | nil => simp [joinSpace] at h
  | cons w ws ih =>
    rcases ws with _ | ⟨w', ws'⟩
    · exact Or.inl ⟨w, by simp, h⟩
    · have hjoin : joinSpace (w :: w' :: ws') = w ++ ' ' :: joinSpace (w' :: ws') := rfl
      rw [hjoin] at h
      rcases List.mem_append.mp h with h | h
      · exact Or.inl ⟨w, by simp, h⟩
      · rcases List.mem_cons.mp h with h | h
        · exact Or.inr h
        · rcases ih h with ⟨u, hu, hc⟩ | h
          · exact Or.inl ⟨u, by simp [hu], hc⟩
          · exact Or.inr h

/-- Decomposition used to push `strip()` through `split()`. -/
theorem strip_decomposition (m : List Char) :
    ∃ lead trail, m = lead ++ pyStrip m ++ trail ∧
      (∀ c ∈ lead, isPySpace c = true) ∧ (∀ c ∈ trail, isPySpace c = true) := by
  refine ⟨m.takeWhile isPySpace,
    ((m.dropWhile isPySpace).reverse.takeWhile isPySpace).reverse, ?_, ?_, ?_⟩
  · conv_lhs => rw [← List.takeWhile_append_dropWhile (p := isPySpace) (l := m)]
    rw [List.append_assoc]
    congr 1
    conv_lhs =>
      rw [← List.reverse_reverse (m.dropWhile isPySpace),
        ← List.takeWhile_append_dropWhile (p := isPySpace)
          (l := (m.dropWhile isPySpace).reverse)]
    rw [List.reverse_append]
    rfl
  · intro c hc
    exact List.mem_takeWhile_imp hc
  · intro c hc
    rw [List.mem_reverse] at hc
    exact List.mem_takeWhile_imp hc

/-- `split(filter(strip(m))) = split(filter(m))` when the filter keeps
whitespace. -/
theorem pySplit_filter_strip (q : Char → Bool) (hq : ∀ c, isPySpace c = true → q c = true)
    (m : List Char) :
    pySplit ((pyStrip m).filter q) = pySplit (m.filter q) := by
  obtain ⟨lead, trail, hm, hlead, htrail⟩ := strip_decomposition m
  conv_rhs => rw [hm]
  rw [List.filter_append, List.filter_append]
  have hl : lead.filter q = lead := List.filter_eq_self.mpr (fun c hc => hq c (hlead c hc))
  have ht : trail.filter q = trail := List.filter_eq_self.mpr (fun c hc => hq c (htrail c hc))
  rw [hl, ht]
  unfold pySplit
  rw [List.append_assoc, pySplitGo_spaces_leading lead hlead,
    pySplitGo_spaces_suffix trail htrail]

theorem map_eq_self_of_stable {f : Char → Char} (l : List Char)
    (h : ∀ c ∈ l, f c = c) : l.map f = l := by
  induction l with
  | nil => rfl
  | cons a as ih => simp [h a (by simp), ih (fun c hc => h c (by simp [hc]))]

theorem mem_pyStrip (m : List Char) (c : Char) (h : c ∈ pyStrip m) : c ∈ m := by
  unfold pyStrip at h
  rw [List.mem_reverse] at h
  have h2 := (List.dropWhile_sublist (l := (m.dropWhile isPySpace).reverse)
    (p := isPySpace)).mem h
  rw [List.mem_reverse] at h2
  exact (List.dropWhile_sublist (l := m) (p := isPySpace)).mem h2

/-- Characters surviving the lower/strip/filter pipeline are lowercase-stable
and pass the filter; the pipeline's split output consists of nonempty
whitespace-free words of such characters. -/
theorem pipeline_chars (q : Char → Bool) (l : List Char) (c : Char)
    (h : c ∈ (pyStrip (pyLower l)).filter q) : c.toLower = c ∧ q c = true := by
  have hq : q c = true := (List.mem_filter.mp h).2
  have hmem : c ∈ pyLower l := mem_pyStrip _ c (List.mem_filter.mp h).1
  obtain ⟨c₀, _, rfl⟩ := List.mem_map.mp hmem
  exact ⟨toLower_idem c₀, hq⟩

/-- Normalised output of the lower/strip/filter/split/join pipeline is a fixed
point of the same pipeline. -/
theorem pipeline_fixed (q : Char → Bool) (hq : ∀ c, isPySpace c = true → q c = true)
    (hsp : q ' ' = true) (ws : List (List Char))
    (hgood : ∀ w ∈ ws, w ≠ [] ∧ ∀ c ∈ w, isPySpace c = false)
    (hchar : ∀ w ∈ ws, ∀ c ∈ w, c.toLower = c ∧ q c = true) :
    pySplit ((pyStrip (pyLower (joinSpace ws))).filter q) = ws := by
  have hstable : ∀ c ∈ joinSpace ws, c.toLower = c := by
    intro c hc
    rcases mem_joinSpace ws c hc with ⟨w, hw, hcw⟩ | rfl
    · exact (hchar w hw c hcw).1
    · decide
  have hkeep : ∀ c ∈ joinSpace ws, q c = true := by
    intro c hc
    rcases mem_joinSpace ws c hc with ⟨w, hw, hcw⟩ | rfl
    · exact (hchar w hw c hcw).2
    · exact hsp
  have h1 : pyLower (joinSpace ws) = joinSpace ws := map_eq_self_of_stable _ hstable
  rw [h1, pySplit_filter_strip q hq, List.filter_eq_self.mpr hkeep,
    pySplit_joinSpace ws hgood]

theorem normalizeNameL_idem (l : List Char) :
    normalizeNameL (normalizeNameL l) = normalizeNameL l := by
  have hq : ∀ c, isPySpace c = true → nameKeep c = true := by
    intro c h; simp [nameKeep, h]
  have hgood := pySplitGo_mem ((pyStrip (pyLower l)).filter nameKeep) [] (by simp)
  set ws := pySplit ((pyStrip (pyLower l)).filter nameKeep) with hws
  have hgood' : ∀ w ∈ ws, w ≠ [] ∧ ∀ c ∈ w, isPySpace c = false := by
    intro w hw
    exact ⟨(hgood w hw).1, fun c hc => ((hgood w hw).2 c hc).1⟩
  have hchar : ∀ w ∈ ws, ∀ c ∈ w, c.toLower = c ∧ nameKeep c = true := by
    intro w hw c hc
    have := ((hgood w hw).2 c hc).2
    simp only [List.not_mem_nil, or_false] at this
    exact pipeline_chars nameKeep l c this
  show joinSpace (pySplit ((pyStrip (pyLower (joinSpace ws))).filter nameKeep)) = joinSpace ws
  rw [pipeline_fixed nameKeep hq (by decide) ws hgood' hchar]

theorem pipeline_good (q : Char → Bool) (l : List Char) :
    ∀ w ∈ pySplit ((pyStrip (pyLower l)).filter q),
      w ≠ [] ∧ ∀ c ∈ w, isPySpace c = false := by
  intro w hw
  have hgood := pySplitGo_mem ((pyStrip (pyLower l)).filter q) [] (by simp) w hw
  exact ⟨hgood.1, fun c hc => (hgood.2 c hc).1⟩

theorem pipeline_char_spec (q : Char → Bool) (l : List Char) :
    ∀ w ∈ pySplit ((pyStrip (pyLower l)).filter q),
      ∀ c ∈ w, c.toLower = c ∧ q c = true := by
  intro w hw c hc
  have hgood := pySplitGo_mem ((pyStrip (pyLower l)).filter q) [] (by simp) w hw
  have := (hgood.2 c hc).2
  simp only [List.not_mem_nil, or_false] at this
  exact pipeline_chars q l c this

/-- Unfolded form of `_normalize_title`: since the first join/split round
trips, the words are the split of the filtered input, minus stop words,
truncated to 10. -/
theorem normalizeTitleL_eq (l : List Char) :
    normalizeTitleL l =
      joinSpace (((pySplit ((pyStrip (pyLower l)).filter titleKeep)).filter
        (fun w => decide (w ∉ titleStopwords))).take 10) := by
  simp only [normalizeTitleL]
  rw [pySplit_joinSpace _ (pipeline_good titleKeep l)]

theorem normalizeTitleL_idem (l : List Char) :
    normalizeTitleL (normalizeTitleL l) = normalizeTitleL l := by
  have hq : ∀ c, isPySpace c = true → titleKeep c = true := by
    intro c h; simp [titleKeep, h]
  have hgood₀ := pipeline_good titleKeep l
  have hchar₀ := pipeline_char_spec titleKeep l
  rw [normalizeTitleL_eq l]
  have hsub : ∀ w ∈ ((pySplit ((pyStrip (pyLower l)).filter titleKeep)).filter
      (fun w => decide (w ∉ titleStopwords))).take 10,
      w ∈ pySplit ((pyStrip (pyLower l)).filter titleKeep) := by
    intro w hw
    exact (List.mem_filter.mp (List.take_subset _ _ hw)).1
  have hgoodws : ∀ w ∈ ((pySplit ((pyStrip (pyLower l)).filter titleKeep)).filter
      (fun w => decide (w ∉ titleStopwords))).take 10,
      w ≠ [] ∧ ∀ c ∈ w, isPySpace c = false :=
    fun w hw => hgood₀ w (hsub w hw)
  have hcharws : ∀ w ∈ ((pySplit ((pyStrip (pyLower l)).filter titleKeep)).filter
      (fun w => decide (w ∉ titleStopwords))).take 10,
      ∀ c ∈ w, c.toLower = c ∧ titleKeep c = true :=
    fun w hw => hchar₀ w (hsub w hw)
  have hP : ∀ w ∈ ((pySplit ((pyStrip (pyLower l)).filter titleKeep)).filter
      (fun w => decide (w ∉ titleStopwords))).take 10,
      (fun w => decide (w ∉ titleStopwords)) w = true := by
    intro w hw
    exact (List.mem_filter.mp (List.take_subset _ _ hw)).2
  rw [normalizeTitleL_eq]
  rw [pipeline_fixed titleKeep hq (by decide) _ hgoodws hcharws,
    List.filter_eq_self.mpr hP, List.take_take]
  simp

theorem normalize_name_idem (s : String) :
    normalize_name (normalize_name s) = normalize_name s := by
  unfold normalize_name
  by_cases hs : s.isEmpty
  · rw [if_pos hs, if_pos (by decide)]
  · simp only [hs, Bool.false_eq_true, if_false]
    by_cases h2 : (String.mk (normalizeNameL s.data)).isEmpty
    · rw [if_pos h2]
      exact ((String.isEmpty_iff _).mp h2).symm
    · rw [if_neg h2]
      exact congrArg String.mk (normalizeNameL_idem s.data)

theorem normalize_title_idem (s : String) :
    normalize_title (normalize_title s) = normalize_title s := by
  unfold normalize_title
  by_cases hs : s.isEmpty
  · rw [if_pos hs, if_pos (by decide)]
  · simp only [hs, Bool.false_eq_true, if_false]
    by_cases h2 : (String.mk (normalizeTitleL s.data)).isEmpty
    · rw [if_pos h2]
      exact ((String.isEmpty_iff _).mp h2).symm
    · rw [if_neg h2]
      exact congrArg String.mk (normalizeTitleL_idem s.data)

theorem countOf_cons (ix : List (String × String)) (k : String) (ks : List String)
    (fn : String) :
    countOf ix (k :: ks) fn =
      countOf ix ks fn + (if alookup ix k = some fn then 1 else 0) := by
  simp [countOf, List.countP_cons]

theorem firstOccurrences_nodup (ix : List (String × String)) (keys : List String) :
    (firstOccurrences ix keys).Nodup := by
  induction keys with
  | nil => simp [firstOccurrences]
  | cons k ks ih =>
    unfold firstOccurrences
    match h : alookup ix k with
    | none => exact ih
    | some fn =>
      refine List.Nodup.cons ?_ (List.Nodup.filter _ ih)
      intro hmem
      have := (List.mem_filter.mp hmem).2
      simp at this

theorem firstOccurrences_support (ix : List (String × String)) (keys : List String)
    (fn : String) :
    fn ∈ firstOccurrences ix keys ↔ ∃ k ∈ keys, alookup ix k = some fn := by
  induction keys with
  | nil => simp [firstOccurrences]
  | cons k ks ih =>
    unfold firstOccurrences
    match h : alookup ix k with
    | none =>
      rw [ih]
      constructor
      · rintro ⟨k', hk', hl⟩
        exact ⟨k', by simp [hk'], hl⟩
      · rintro ⟨k', hk', hl⟩
        rcases List.mem_cons.mp hk' with rfl | hk'
        · rw [h] at hl; cases hl
        · exact ⟨k', hk', hl⟩
    | some fn₀ =>
      constructor
      · intro hmem
        rcases List.mem_cons.mp hmem with rfl | hmem
        · exact ⟨k, by simp, h⟩
        · obtain ⟨k', hk', hl⟩ := ih.mp (List.mem_filter.mp hmem).1
          exact ⟨k', by simp [hk'], hl⟩
      · rintro ⟨k', hk', hl⟩
        rcases List.mem_cons.mp hk' with rfl | hk'
        · rw [h] at hl
          simp only [Option.some.injEq] at hl
          subst hl
          exact List.mem_cons_self _ _
        · by_cases hfn : fn = fn₀
          · subst hfn; exact List.mem_cons_self _ _
          · exact List.mem_cons_of_mem _ (List.mem_filter.mpr
              ⟨ih.mpr ⟨k', hk', hl⟩, by simpa using hfn⟩)

theorem firstOccurrences_count_pos (ix : List (String × String)) (keys : List String)
    (fn : String) (h : fn ∈ firstOccurrences ix keys) : 1 ≤ countOf ix keys fn := by
  obtain ⟨k, hk, hl⟩ := (firstOccurrences_support ix keys fn).mp h
  unfold countOf
  have : 0 < keys.countP (fun k => decide (alookup ix k = some fn)) :=
    List.countP_pos_iff.mpr ⟨k, hk, by simp [hl]⟩
  omega

theorem bumpCount_of_mem (acc : List (String × Nat)) (fn : String)
    (h : fn ∈ acc.map Prod.fst) :
    bumpCount acc fn = acc.map (fun p => if p.1 = fn then (p.1, p.2 + 1) else p) := by
  unfold bumpCount
  rw [if_pos]
  obtain ⟨p, hp, hfst⟩ := List.mem_map.mp h
  exact List.any_eq_true.mpr ⟨p, hp, by simp [hfst]⟩

theorem bumpCount_of_not_mem (acc : List (String × Nat)) (fn : String)
    (h : ¬ fn ∈ acc.map Prod.fst) :
    bumpCount acc fn = acc ++ [(fn, 1)] := by
  unfold bumpCount
  rw [if_neg]
  intro hany
  obtain ⟨p, hp, hfst⟩ := List.any_eq_true.mp hany
  exact h (List.mem_map.mpr ⟨p, hp, by simpa using hfst⟩)

theorem bumpCount_fst_of_mem (acc : List (String × Nat)) (fn : String)
    (h : fn ∈ acc.map Prod.fst) :
    (bumpCount acc fn).map Prod.fst = acc.map Prod.fst := by
  rw [bumpCount_of_mem acc fn h, List.map_map]
  refine List.map_congr_left ?_
  intro p _
  by_cases hp : p.1 = fn <;> simp [hp, Function.comp]

/-- Canonical form of the counting loop: starting from accumulator `acc`, the
final association list is `acc` with counts increased by the key hits, plus
the newly encountered candidates in first-encounter order with their counts. -/
theorem countMatches_go (ix : List (String × String)) (keys : List String) :
    ∀ acc : List (String × Nat), (acc.map Prod.fst).Nodup →
    keys.foldl (fun acc k =>
      match alookup ix k with
      | some fn => bumpCount acc fn
      | none => acc) acc =
    acc.map (fun p => (p.1, p.2 + countOf ix keys p.1)) ++
      ((firstOccurrences ix keys).filter
        (fun fn => decide (¬ fn ∈ acc.map Prod.fst))).map
        (fun fn => (fn, countOf ix keys fn)) := by
  induction keys with
  | nil =>
    intro acc _
    simp [countOf, firstOccurrences]
  | cons k ks ih =>
    intro acc hnd
    rw [List.foldl_cons]
    match h : alookup ix k with
    | none =>
      have hc : ∀ fn, countOf ix (k :: ks) fn = countOf ix ks fn := by
        intro fn
        rw [countOf_cons, h]
        simp
      have hstep : firstOccurrences ix (k :: ks) =
          match alookup ix k with
          | none => firstOccurrences ix ks
          | some fn => fn :: (firstOccurrences ix ks).filter (fun x => decide (x ≠ fn)) := rfl
      have ho : firstOccurrences ix (k :: ks) = firstOccurrences ix ks := by
        rw [hstep, h]
      simp only [h, ho, hc]
      exact ih acc hnd
    | some fn₀ =>
      have hc : ∀ fn, countOf ix (k :: ks) fn =
          countOf ix ks fn + (if fn = fn₀ then 1 else 0) := by
        intro fn
        by_cases hfn : fn = fn₀
        · subst hfn
          rw [countOf_cons, h, if_pos rfl, if_pos rfl]
        · rw [countOf_cons, h, if_neg (by simpa using Ne.symm hfn), if_neg hfn]
      have ho : firstOccurrences ix (k :: ks) =
          fn₀ :: (firstOccurrences ix ks).filter (fun x => decide (x ≠ fn₀)) := by
        have hstep : firstOccurrences ix (k :: ks) =
            match alookup ix k with
            | none => firstOccurrences ix ks
            | some fn => fn :: (firstOccurrences ix ks).filter (fun x => decide (x ≠ fn)) := rfl
        rw [hstep, h]
      simp only [h]
      by_cases hmem : fn₀ ∈ acc.map Prod.fst
      · rw [bumpCount_of_mem acc fn₀ hmem]
        have hfst2 : (acc.map (fun p => if p.1 = fn₀ then (p.1, p.2 + 1) else p)).map Prod.fst
            = acc.map Prod.fst := by
          rw [List.map_map]
          refine List.map_congr_left ?_
          intro p _
          by_cases hp : p.1 = fn₀ <;> simp [hp, Function.comp]
        have hnd' : ((acc.map (fun p => if p.1 = fn₀ then (p.1, p.2 + 1) else p)).map
            Prod.fst).Nodup := by
          rw [hfst2]
          exact hnd
        rw [ih _ hnd', hfst2, ho,
          List.filter_cons_of_neg (by simpa using hmem), List.filter_filter]
        congr 1
        · rw [List.map_map]
          refine List.map_congr_left ?_
          intro p _
          by_cases hp : p.1 = fn₀
          · simp [hp, hc, Function.comp]
            omega
          · simp [hp, hc, Function.comp]
        · have hfe : ∀ x ∈ firstOccurrences ix ks,
              (decide (¬ x ∈ acc.map Prod.fst) && decide (x ≠ fn₀)) =
                decide (¬ x ∈ acc.map Prod.fst) := by
            intro x _
            by_cases hx : x ∈ acc.map Prod.fst
            · simp [hx]
            · have hxne : x ≠ fn₀ := fun hEq => hx (hEq ▸ hmem)
              simp [hx, hxne]
          rw [List.filter_congr hfe]
          refine List.map_congr_left ?_
          intro x hx
          have hxne : ¬ x ∈ acc.map Prod.fst := by
            have := (List.mem_filter.mp hx).2
            simpa using this
          have hne : x ≠ fn₀ := fun hEq => hxne (hEq ▸ hmem)
          simp [hc, hne]
      · rw [bumpCount_of_not_mem acc fn₀ hmem]
        have hnd' : ((acc ++ [(fn₀, 1)]).map Prod.fst).Nodup := by
          rw [List.map_append]
          simp only [List.map_cons, List.map_nil]
          rw [List.nodup_append]
          exact ⟨hnd, List.nodup_singleton _, by
            intro x hx hx2
            simp only [List.mem_singleton] at hx2
            subst hx2
            exact hmem hx⟩
        rw [ih _ hnd']
        rw [List.map_append, ho]
        rw [List.filter_cons_of_pos (by simpa using hmem), List.filter_filter]
        have hfst : (acc ++ [(fn₀, 1)]).map Prod.fst = acc.map Prod.fst ++ [fn₀] := by
          simp
        rw [hfst]
        have hacc : acc.map (fun p => (p.1, p.2 + countOf ix ks p.1)) =
            acc.map (fun p => (p.1, p.2 + countOf ix (k :: ks) p.1)) := by
          refine List.map_congr_left ?_
          intro p hp
          have hne : p.1 ≠ fn₀ := by
            intro hEq
            exact hmem (hEq ▸ List.mem_map.mpr ⟨p, hp, rfl⟩)
          simp [hc, hne]
        have hmid : ([(fn₀, (1 : Nat))].map fun p => (p.1, p.2 + countOf ix ks p.1)) =
            [(fn₀, countOf ix (k :: ks) fn₀)] := by
          simp [hc]
          omega
        have hfe : ∀ x ∈ firstOccurrences ix ks,
            (decide (¬ x ∈ acc.map Prod.fst ++ [fn₀]) : Bool) =
              (decide (¬ x ∈ acc.map Prod.fst) && decide (x ≠ fn₀)) := by
          intro x _
          by_cases hx : x ∈ acc.map Prod.fst
          · have hx2 : x ∈ acc.map Prod.fst ++ [fn₀] := List.mem_append_left _ hx
            simp [hx, hx2]
          · by_cases hxf : x = fn₀
            · subst hxf
              simp
            · have hx2 : ¬ x ∈ acc.map Prod.fst ++ [fn₀] := by
                simp [hx, hxf]
              simp [hx, hxf, hx2]
        rw [List.filter_congr hfe]
        have htail : ((firstOccurrences ix ks).filter
              (fun x => decide (¬ x ∈ acc.map Prod.fst) && decide (x ≠ fn₀))).map
              (fun fn => (fn, countOf ix ks fn)) =
            ((firstOccurrences ix ks).filter
              (fun x => decide (¬ x ∈ acc.map Prod.fst) && decide (x ≠ fn₀))).map
              (fun fn => (fn, countOf ix (k :: ks) fn)) := by
          refine List.map_congr_left ?_
          intro x hx
          have hxne : x ≠ fn₀ := by
            have := (List.mem_filter.mp hx).2
            simp only [Bool.and_eq_true, decide_eq_true_eq] at this
            exact this.2
          simp [hc, hxne]
        rw [hacc, hmid, htail, List.append_assoc]
        rfl

/-- `countMatches` lists the candidates in first-encounter order, each with
its key-hit count. -/
theorem countMatches_eq (ix : List (String × String)) (keys : List String) :
    countMatches ix keys =
      (firstOccurrences ix keys).map (fun fn => (fn, countOf ix keys fn)) := by
  have := countMatches_go ix keys [] (by simp)
  simpa [countMatches] using this

/-- Characterisation of the best-profile selection fold: either nothing ever
qualifies and the accumulator survives, or the result is the first entry
attaining the final count, with strictly smaller counts before it and no
qualifying strictly larger count after it. -/
theorem selectBest_go (m : Nat) (ms : List (String × Nat)) :
    ∀ acc : Option String × Nat,
    (ms.foldl (fun acc p =>
        if p.2 ≥ m ∧ p.2 > acc.2 then (some p.1, p.2) else acc) acc = acc ∧
      ∀ p ∈ ms, ¬ (m ≤ p.2 ∧ acc.2 < p.2)) ∨
    (∃ pre q post, ms = pre ++ q :: post ∧
      ms.foldl (fun acc p =>
        if p.2 ≥ m ∧ p.2 > acc.2 then (some p.1, p.2) else acc) acc = (some q.1, q.2) ∧
      m ≤ q.2 ∧ acc.2 < q.2 ∧
      (∀ x ∈ pre, x.2 < q.2) ∧ (∀ x ∈ post, ¬ (m ≤ x.2 ∧ q.2 < x.2))) := by
  induction ms with
  | nil =>
    intro acc
    exact Or.inl ⟨rfl, by simp⟩
  | cons p ms ih =>
    intro acc
    rw [List.foldl_cons]
    by_cases ht : p.2 ≥ m ∧ p.2 > acc.2
    · rw [if_pos ht]
      rcases ih (some p.1, p.2) with ⟨heq, hstall⟩ | ⟨pre, q, post, hsplit, heq, hq1, hq2, hpre, hpost⟩
      · refine Or.inr ⟨[], p, ms, by simp, heq, ht.1, ht.2, by simp, ?_⟩
        intro x hx
        simpa using hstall x hx
      · refine Or.inr ⟨p :: pre, q, post, by simp [hsplit], heq, hq1, ?_, ?_, hpost⟩
        · exact lt_trans ht.2 hq2
        · intro x hx
          rcases List.mem_cons.mp hx with rfl | hx
          · exact hq2
          · exact hpre x hx
    · rw [if_neg ht]
      rcases ih acc with ⟨heq, hstall⟩ | ⟨pre, q, post, hsplit, heq, hq1, hq2, hpre, hpost⟩
      · refine Or.inl ⟨heq, ?_⟩
        intro x hx
        rcases List.mem_cons.mp hx with rfl | hx
        · exact ht
        · exact hstall x hx
      · refine Or.inr ⟨p :: pre, q, post, by simp [hsplit], heq, hq1, hq2, ?_, hpost⟩
        intro x hx
        rcases List.mem_cons.mp hx with rfl | hx
        · rcases Decidable.not_and_iff_or_not.mp ht with h | h
          · have : x.2 < m := Nat.lt_of_not_le h
            omega
          · have : x.2 ≤ acc.2 := Nat.le_of_not_lt h
            omega
        · exact hpre x hx

/-- Packaged specification of `selectBest` from the zero accumulator. -/
theorem selectBest_spec (ms : List (String × Nat)) (m : Nat) :
    ((selectBest ms m).1 = none → ∀ p ∈ ms, ¬ (m ≤ p.2 ∧ 0 < p.2)) ∧
    (∀ fn, (selectBest ms m).1 = some fn →
      ∃ pre q post, ms = pre ++ q :: post ∧ q.1 = fn ∧ m ≤ q.2 ∧ 0 < q.2 ∧
        (∀ x ∈ pre, x.2 < q.2) ∧ (∀ x ∈ ms, x.2 ≤ q.2)) := by
  have hgo := selectBest_go m ms (none, 0)
  rcases hgo with ⟨heq, hstall⟩ | ⟨pre, q, post, hsplit, heq, hq1, hq2, hpre, hpost⟩
  · constructor
    · intro _ p hp
      simpa using hstall p hp
    · intro fn hfn
      unfold selectBest at hfn
      rw [heq] at hfn
      cases hfn
  · constructor
    · intro hnone
      unfold selectBest at hnone
      rw [heq] at hnone
      cases hnone
    · intro fn hfn
      unfold selectBest at hfn
      rw [heq] at hfn
      simp only [Option.some.injEq] at hfn
      refine ⟨pre, q, post, hsplit, hfn, hq1, hq2, hpre, ?_⟩
      intro x hx
      rw [hsplit] at hx
      rcases List.mem_append.mp hx with hx | hx
      · exact le_of_lt (hpre x hx)
      · rcases List.mem_cons.mp hx with rfl | hx
        · exact le_refl _
        · by_cases hmx : m ≤ x.2
          · by_contra hgt
            exact hpost x hx ⟨hmx, Nat.lt_of_not_le (fun hle => hgt hle)⟩
          · have : x.2 < m := Nat.lt_of_not_le hmx
            omega

/-- Claim C1, counterexample: with an existing profile whose `h_index_source`
is empty, incoming `h_index = 8` does not beat the stored `10`, yet the
generic field merge still overwrites `h_index_source` — so `h_index_source`
is not overwritten "only" when the incoming h-index is strictly greater. -/
theorem c1_source_overwritten_without_higher_h :
    (mergeProfiles (baseInfo "alice smith" "" 10)
        (baseInfo "alice smith" "google_scholar" 8)).h_index_source = "google_scholar" ∧
    (mergeProfiles (baseInfo "alice smith" "" 10)
        (baseInfo "alice smith" "google_scholar" 8)).h_index_source ≠
      (baseInfo "alice smith" "" 10).h_index_source ∧
    (mergeProfiles (baseInfo "alice smith" "" 10)
        (baseInfo "alice smith" "google_scholar" 8)).h_index = 10 ∧
    ¬ (baseInfo "alice smith" "google_scholar" 8).h_index >
        (baseInfo "alice smith" "" 10).h_index := by
  refine ⟨?_, ?_, ?_, ?_⟩ <;> decide

/-- Claim C1 (amended): the merge keeps each string field unless the incoming
value is non-empty and the existing one is empty or `"Unknown"`; `h_index`
changes exactly when the incoming value is strictly greater; a non-empty,
non-`"Unknown"` stored `h_index_source` is overwritten only when the incoming
h-index is strictly greater, and — whenever the stored h-index was non-zero —
a strictly greater incoming h-index updates both `h_index` and
`h_index_source` together.  (An empty or `"Unknown"` stored `h_index_source`
can additionally be filled by the generic field merge, which is the
counterexample to the original claim.) -/
theorem c1_merge_spec (e i : AuthorInfo) :
    (mergeProfiles e i).h_index = (if i.h_index > e.h_index then i.h_index else e.h_index) ∧
    ((mergeProfiles e i).h_index ≠ e.h_index ↔ i.h_index > e.h_index) ∧
    (e.h_index_source ≠ "" → e.h_index_source ≠ "Unknown" →
      ¬ i.h_index > e.h_index → (mergeProfiles e i).h_index_source = e.h_index_source) ∧
    (e.h_index_source ≠ "" → e.h_index_source ≠ "Unknown" →
      (mergeProfiles e i).h_index_source ≠ e.h_index_source → i.h_index > e.h_index) ∧
    (e.h_index ≠ 0 → i.h_index > e.h_index →
      (mergeProfiles e i).h_index = i.h_index ∧
      (mergeProfiles e i).h_index_source = i.h_index_source) ∧
    (mergeProfiles e i).name = mergeStr e.name i.name ∧
    (mergeProfiles e i).affiliation = mergeStr e.affiliation i.affiliation ∧
    (mergeProfiles e i).institution_type = mergeStr e.institution_type i.institution_type ∧
    (mergeProfiles e i).google_scholar_id = mergeStr e.google_scholar_id i.google_scholar_id ∧
    (mergeProfiles e i).semantic_scholar_id =
      mergeStr e.semantic_scholar_id i.semantic_scholar_id ∧
    (mergeProfiles e i).orcid_id = mergeStr e.orcid_id i.orcid_id ∧
    (mergeProfiles e i).homepage = mergeStr e.homepage i.homepage ∧
    (mergeProfiles e i).works_count = mergeNat e.works_count i.works_count ∧
    (mergeProfiles e i).citation_count = mergeNat e.citation_count i.citation_count := by
  have hsrc : (mergeProfiles e i).h_index_source =
      (if i.h_index > mergeNat e.h_index i.h_index then i.h_index_source
       else mergeStr e.h_index_source i.h_index_source) := by
    simp only [mergeProfiles]
    split <;> rfl
  have hh : (mergeProfiles e i).h_index =
      (if i.h_index > mergeNat e.h_index i.h_index then i.h_index
       else mergeNat e.h_index i.h_index) := by
    simp only [mergeProfiles]
    split <;> rfl
  have hmn : mergeNat e.h_index i.h_index = i.h_index ∨
      mergeNat e.h_index i.h_index = e.h_index := by
    unfold mergeNat
    split <;> simp
  have hge : e.h_index ≤ mergeNat e.h_index i.h_index := by
    unfold mergeNat
    split <;> omega
  have h1 : (mergeProfiles e i).h_index =
      (if i.h_index > e.h_index then i.h_index else e.h_index) := by
    rw [hh]
    unfold mergeNat
    split_ifs <;> omega
  refine ⟨h1, ?_, ?_, ?_, ?_, ?_, ?_, ?_, ?_, ?_, ?_, ?_, ?_, ?_⟩
  · rw [h1]
    split_ifs with h <;> constructor <;> intro h2 <;> omega
  · intro hs1 hs2 hlt
    rw [hsrc, if_neg (by rcases hmn with h | h <;> rw [h] <;> omega),
      mergeStr, if_neg (by simp [hs1, hs2])]
  · intro hs1 hs2 hne
    by_contra hlt
    exact hne (by
      rw [hsrc, if_neg (by rcases hmn with h | h <;> rw [h] <;> omega),
        mergeStr, if_neg (by simp [hs1, hs2])])
  · intro hz hlt
    have hm : mergeNat e.h_index i.h_index = e.h_index := by
      unfold mergeNat
      rw [if_neg (by simp [hz])]
    refine ⟨by rw [h1, if_pos hlt], ?_⟩
    rw [hsrc, hm, if_pos hlt]
  all_goals (simp only [mergeProfiles]; split <;> rfl)

/-- Claim C1, witness: the two "In particular" scenarios — incoming 8 from
google_scholar does not displace 10/semantic_scholar, incoming 15 updates
both fields. -/
theorem c1_merge_spec_witness :
    (mergeProfiles (baseInfo "alice smith" "semantic_scholar" 10)
        (baseInfo "alice smith" "google_scholar" 8)).h_index = 10 ∧
    (mergeProfiles (baseInfo "alice smith" "semantic_scholar" 10)
        (baseInfo "alice smith" "google_scholar" 8)).h_index_source = "semantic_scholar" ∧
    (mergeProfiles (baseInfo "alice smith" "semantic_scholar" 10)
        (baseInfo "alice smith" "google_scholar" 15)).h_index = 15 ∧
    (mergeProfiles (baseInfo "alice smith" "semantic_scholar" 10)
        (baseInfo "alice smith" "google_scholar" 15)).h_index_source = "google_scholar" := by
  refine ⟨?_, ?_, ?_, ?_⟩
  · rw [(c1_merge_spec (baseInfo "alice smith" "semantic_scholar" 10)
      (baseInfo "alice smith" "google_scholar" 8)).1]
    decide
  · rw [(c1_merge_spec (baseInfo "alice smith" "semantic_scholar" 10)
      (baseInfo "alice smith" "google_scholar" 8)).2.2.1 (by decide) (by decide) (by decide)]
    rfl
  · exact ((c1_merge_spec (baseInfo "alice smith" "semantic_scholar" 10)
      (baseInfo "alice smith" "google_scholar" 15)).2.2.2.2.1 (by decide) (by decide)).1
  · exact ((c1_merge_spec (baseInfo "alice smith" "semantic_scholar" 10)
      (baseInfo "alice smith" "google_scholar" 15)).2.2.2.2.1 (by decide) (by decide)).2

/-! ### Claim C2: `find_by_publications` -/

/-- Claim C2: with fewer derived keys than `min_overlap` the lookup returns
`None`; otherwise the selected profile has at least `min_overlap` key hits,
the greatest hit count of any candidate, every candidate first encountered
before it has a strictly smaller count (ties go to the earlier candidate),
and the returned value is that profile's stored `author_info`; conversely a
qualifying candidate guarantees a selection. -/
theorem find_by_publications_characterization (st : CacheState)
    (pubs : List Publication) (m : Nat) :
    ((get_publication_keys pubs).length < m → find_by_publications st pubs m = none) ∧
    (∀ fn, (selectBest (countMatches st.index (get_publication_keys pubs)) m).1 = some fn →
      (m ≤ countOf st.index (get_publication_keys pubs) fn ∧
        1 ≤ countOf st.index (get_publication_keys pubs) fn) ∧
      (∀ fn', countOf st.index (get_publication_keys pubs) fn' ≤
        countOf st.index (get_publication_keys pubs) fn) ∧
      (∃ pre post,
        firstOccurrences st.index (get_publication_keys pubs) = pre ++ fn :: post ∧
        ∀ fn' ∈ pre, countOf st.index (get_publication_keys pubs) fn' <
          countOf st.index (get_publication_keys pubs) fn) ∧
      (pubs ≠ [] → ¬ (get_publication_keys pubs).length < m →
        find_by_publications st pubs m =
          match alookup st.files fn with
          | some (some pf) => pf.authorInfo
          | _ => none)) ∧
    ((∃ fn', 1 ≤ countOf st.index (get_publication_keys pubs) fn' ∧
        m ≤ countOf st.index (get_publication_keys pubs) fn') →
      ∃ fn, (selectBest (countMatches st.index (get_publication_keys pubs)) m).1 = some fn) := by
  have hsupp : ∀ fn', 1 ≤ countOf st.index (get_publication_keys pubs) fn' →
      fn' ∈ firstOccurrences st.index (get_publication_keys pubs) := by
    intro fn' h1
    refine (firstOccurrences_support _ _ fn').mpr ?_
    have : 0 < (get_publication_keys pubs).countP
        (fun k => decide (alookup st.index k = some fn')) := by
      unfold countOf at h1
      omega
    obtain ⟨k, hk, hdec⟩ := List.countP_pos_iff.mp this
    exact ⟨k, hk, by simpa using hdec⟩
  refine ⟨?_, ?_, ?_⟩
  · intro hlen
    unfold find_by_publications
    by_cases hp : pubs = []
    · rw [if_pos hp]
    · rw [if_neg hp, if_pos hlen]
  · intro fn hsel
    obtain ⟨pre, q, post, hsplit, hq1, hqm, hq0, hpre, hall⟩ :=
      (selectBest_spec (countMatches st.index (get_publication_keys pubs)) m).2 fn hsel
    rw [countMatches_eq] at hsplit
    obtain ⟨preF, rest, hfo, hpremap, hrest⟩ := List.map_eq_append_iff.mp hsplit
    obtain ⟨fnq, postF, hrest2, hgq, hpostmap⟩ := List.map_eq_cons_iff.mp hrest
    have hfnq : fnq = fn := by
      have := congrArg Prod.fst hgq
      simpa [hq1] using this
    have hcq : countOf st.index (get_publication_keys pubs) fn = q.2 := by
      have := congrArg Prod.snd hgq
      simpa [hfnq] using this
    subst hfnq
    refine ⟨⟨by omega, by omega⟩, ?_, ?_, ?_⟩
    · intro fn'
      by_cases h1 : 1 ≤ countOf st.index (get_publication_keys pubs) fn'
      · have hmem := hsupp fn' h1
        have : (fn', countOf st.index (get_publication_keys pubs) fn') ∈
            countMatches st.index (get_publication_keys pubs) := by
          rw [countMatches_eq]
          exact List.mem_map.mpr ⟨fn', hmem, rfl⟩
        have := hall _ this
        omega
      · omega
    · refine ⟨preF, postF, by rw [hfo, hrest2], ?_⟩
      intro fn' hf'
      have : (fn', countOf st.index (get_publication_keys pubs) fn') ∈ pre := by
        rw [← hpremap]
        exact List.mem_map.mpr ⟨fn', hf', rfl⟩
      have := hpre _ this
      omega
    · intro hp hlen
      unfold find_by_publications
      rw [if_neg hp, if_neg hlen, hsel]
  · rintro ⟨fn', h1, hm⟩
    match hsel : (selectBest (countMatches st.index (get_publication_keys pubs)) m).1 with
    | some fn => exact ⟨fn, rfl⟩
    | none =>
      exfalso
      have hstall := (selectBest_spec (countMatches st.index (get_publication_keys pubs)) m).1
        hsel (fn', countOf st.index (get_publication_keys pubs) fn')
        (by
          rw [countMatches_eq]
          exact List.mem_map.mpr ⟨fn', hsupp fn' h1, rfl⟩)
      exact hstall ⟨hm, by omega⟩

set_option maxRecDepth 40000 in
/-- Claim C2, witness: two overlapping publications select the indexed
profile. -/
theorem find_by_publications_characterization_witness :
    find_by_publications c2State c2Pubs 2 = some c2Info ∧
    2 ≤ countOf c2State.index (get_publication_keys c2Pubs) "profileA.json" := by
  have h := (find_by_publications_characterization c2State c2Pubs 2).2.1
    "profileA.json" (by decide)
  refine ⟨?_, h.1.1⟩
  rw [h.2.2.2 (by decide) (by decide)]
  rfl

/-! ### Claim C10: short normalised titles produce no publication keys -/

theorem filterMap_if {α β : Type} (c : α → Prop) [DecidablePred c] (f : α → β)
    (l : List α) :
    l.filterMap (fun a => if c a then some (f a) else none) =
      (l.filter (fun a => decide (c a))).map f := by
  induction l with
  | nil => rfl
  | cons a as ih =>
    by_cases h : c a <;> simp [h, ih]

/-- A string whose first character is not `'p'` is not a `pub:` key. -/
theorem head_ne_pub (k : String) (h : ¬ k.data.head? = some 'p') (r : String) :
    k ≠ "pub:" ++ r := by
  intro hk
  apply h
  rw [hk]
  rfl

theorem get_publication_keys_form (pubs : List Publication) :
    ∀ k ∈ get_publication_keys pubs, ∃ r, k = "pub:" ++ r := by
  intro k hk
  unfold get_publication_keys at hk
  obtain ⟨p, _, hsome⟩ := List.mem_filterMap.mp hk
  simp only at hsome
  split_ifs at hsome
  exact ⟨_, (Option.some.inj hsome).symm⟩

theorem get_lookup_keys_not_pub (info : AuthorInfo) :
    ∀ k ∈ get_lookup_keys info, ∀ r, k ≠ "pub:" ++ r := by
  intro k hk r
  unfold get_lookup_keys at hk
  have hresolve : k = "name:" ++ normalize_name info.name ∨
      k = "gs:" ++ info.google_scholar_id ∨
      k = "s2:" ++ info.semantic_scholar_id ∨
      k = "orcid:" ++ info.orcid_id := by
    rcases List.mem_append.mp hk with hk1 | hk1
    · rcases List.mem_append.mp hk1 with hk2 | hk2
      · rcases List.mem_append.mp hk2 with hk3 | hk3
        · split_ifs at hk3 with h
          · exact Or.inl (List.mem_singleton.mp hk3)
          · cases hk3
        · split_ifs at hk3 with h
          · exact Or.inr (Or.inl (List.mem_singleton.mp hk3))
          · cases hk3
      · split_ifs at hk2 with h
        · exact Or.inr (Or.inr (Or.inl (List.mem_singleton.mp hk2)))
        · cases hk2
    · split_ifs at hk1 with h
      · exact Or.inr (Or.inr (Or.inr (List.mem_singleton.mp hk1)))
      · cases hk1
  rcases hresolve with h | h | h | h <;> rw [h] <;>
    exact head_ne_pub _ (by rw [String.data_append]; intro hx; cases hx) r

/-- Claim C10: a publication whose normalised title has 20 characters or
fewer yields no `pub:` key (only long-titled ones among the first ten do); if
all titles are short the key list is empty, publication lookup always returns
`None`, and `update_profile` indexes only ID/name keys; and since every
derived key has the `pub:` prefix, a profile whose index entries are all
non-`pub:` keys can never be selected by publication overlap. -/
theorem short_titles_never_matched (pubs : List Publication) (st : CacheState)
    (m : Nat) (now : Int) (info : AuthorInfo) :
    (get_publication_keys pubs = ((pubs.take 10).filter
      (fun p => decide (pubTitle p ≠ "" ∧ 20 < (normalize_title (pubTitle p)).length))).map
      (fun p => "pub:" ++ (normalize_title (pubTitle p)).take 50)) ∧
    ((∀ p ∈ pubs, (normalize_title (pubTitle p)).length ≤ 20) →
      get_publication_keys pubs = [] ∧
      find_by_publications st pubs m = none ∧
      (update_profile now st info pubs).index =
        (get_lookup_keys (mergedInfo now st info pubs)).foldl
          (fun ix k => ainsert ix k (updateFilename now st info pubs)) st.index) ∧
    (∀ fn, (∀ k, alookup st.index k = some fn → ∀ r, k ≠ "pub:" ++ r) →
      (selectBest (countMatches st.index (get_publication_keys pubs)) m).1 ≠ some fn) ∧
    (∀ k ∈ get_lookup_keys info, ∀ r, k ≠ "pub:" ++ r) := by
  have hform : get_publication_keys pubs = ((pubs.take 10).filter
      (fun p => decide (pubTitle p ≠ "" ∧ 20 < (normalize_title (pubTitle p)).length))).map
      (fun p => "pub:" ++ (normalize_title (pubTitle p)).take 50) := by
    unfold get_publication_keys
    have hfe : (fun p : Publication =>
        if pubTitle p ≠ "" then
          if (normalize_title (pubTitle p)).length > 20 then
            some ("pub:" ++ (normalize_title (pubTitle p)).take 50)
          else none
        else none) =
        (fun p : Publication =>
          if pubTitle p ≠ "" ∧ 20 < (normalize_title (pubTitle p)).length then
            some ("pub:" ++ (normalize_title (pubTitle p)).take 50)
          else none) := by
      funext p
      by_cases h1 : pubTitle p ≠ ""
      · by_cases h2 : (normalize_title (pubTitle p)).length > 20
        · rw [if_pos h1, if_pos h2, if_pos ⟨h1, h2⟩]
        · rw [if_pos h1, if_neg h2, if_neg (fun hc => h2 hc.2)]
      · rw [if_neg h1, if_neg (fun hc => h1 hc.1)]
    rw [hfe, filterMap_if]
  refine ⟨hform, ?_, ?_, get_lookup_keys_not_pub info⟩
  · intro hshort
    have hkeys : get_publication_keys pubs = [] := by
      rw [hform]
      have : (pubs.take 10).filter
          (fun p => decide (pubTitle p ≠ "" ∧ 20 < (normalize_title (pubTitle p)).length)) =
          [] := by
        rw [List.filter_eq_nil_iff]
        intro p hp
        have := hshort p (List.take_subset _ _ hp)
        simp only [decide_eq_true_eq, not_and]
        intro _
        omega
      rw [this]
      rfl
    refine ⟨hkeys, ?_, ?_⟩
    · unfold find_by_publications
      by_cases hp : pubs = []
      · rw [if_pos hp]
      · rw [if_neg hp, hkeys]
        by_cases hm : ([] : List String).length < m
        · rw [if_pos hm]
        · rw [if_neg hm]
          rfl
    · unfold update_profile
      rw [hkeys, List.append_nil]
  · intro fn hno hsel
    obtain ⟨pre, q, post, hsplit, hq1, _, hq0, _, _⟩ :=
      (selectBest_spec (countMatches st.index (get_publication_keys pubs)) m).2 fn hsel
    have hqmem : q ∈ countMatches st.index (get_publication_keys pubs) := by
      rw [hsplit]
      exact List.mem_append.mpr (Or.inr (List.mem_cons_self _ _))
    rw [countMatches_eq] at hqmem
    obtain ⟨fnq, hfnq, hgq⟩ := List.mem_map.mp hqmem
    have hfq : fnq = fn := by
      have := congrArg Prod.fst hgq
      simpa [hq1] using this
    subst hfq
    obtain ⟨k, hk, hkl⟩ := (firstOccurrences_support _ _ fnq).mp hfnq
    obtain ⟨r, hr⟩ := get_publication_keys_form pubs k hk
    exact hno k hkl r hr

set_option maxRecDepth 40000 in
/-- Claim C10, witness: two short-titled publications yield no keys, no
match, and the name-indexed profile can never be selected by publication
overlap. -/
theorem short_titles_never_matched_witness :
    get_publication_keys c10Pubs = [] ∧
    find_by_publications c10State c10Pubs 1 = none ∧
    ¬ (selectBest (countMatches c10State.index (get_publication_keys c10Pubs)) 1).1 =
      some "profileB.json" := by
  have h := short_titles_never_matched c10Pubs c10State 1 0
    (baseInfo "bob jones" "semantic_scholar" 3)
  have h2 := h.2.1 (by decide)
  refine ⟨h2.1, h2.2.1, ?_⟩
  refine h.2.2.1 "profileB.json" ?_
  intro k hk r
  have hkey : k = "name:bob jones" := by
    by_cases hq : k = "name:bob jones"
    · exact hq
    · exfalso
      unfold alookup at hk
      simp only [c10State, List.find?] at hk
      rw [show (decide (("name:bob jones" : String) = k)) = false by
        simpa using fun hEq => hq hEq.symm] at hk
      simp at hk
  subst hkey
  exact head_ne_pub _ (by decide) r

/-! ### Claim C8: idempotence of the two normalisers -/

/-- Claim C8: `_normalize_name` and `_normalize_title` are idempotent on
every string. -/
theorem normalization_idempotent (s : String) :
    normalize_name (normalize_name s) = normalize_name s ∧
    normalize_title (normalize_title s) = normalize_title s :=
  ⟨normalize_name_idem s, normalize_title_idem s⟩

/-! ### Claim C3: `get_by_any_id` scan order, expiry, lazy deletion -/

theorem findSome?_skip_none {α β : Type} (f : α → Option β) (l1 : List α)
    (h : ∀ a ∈ l1, f a = none) (l2 : List α) :
    (l1 ++ l2).findSome? f = l2.findSome? f := by
  induction l1 with
  | nil => rfl
  | cons a as ih =>
    rw [List.cons_append, List.findSome?_cons, h a (by simp)]
    exact ih (fun a' h' => h a' (by simp [h']))

/-- Claim C3: `get_by_any_id` scans the keys in the fixed priority order
`gs`, `s2`, `orcid`, normalised name, publication keys; the first key whose
file exists, parses and is at most 30 days old determines the result (its
stored `author_info`, possibly missing), an expired / missing / unparseable
entry is skipped, `None` is returned when every key misses, and the legacy
direct-key `get` lazily unlinks an expired file on access. -/
theorem get_by_any_id_spec (now : Int) (st : CacheState)
    (name gs s2 orcid : String) (pubs : List Publication) :
    (∀ ks1 k ks2 r,
      (if gs ≠ "" then ["gs:" ++ gs] else []) ++
        (if s2 ≠ "" then ["s2:" ++ s2] else []) ++
        (if orcid ≠ "" then ["orcid:" ++ orcid] else []) ++
        (if name ≠ "" then ["name:" ++ normalize_name name] else []) ++
        (if pubs ≠ [] then get_publication_keys pubs else []) = ks1 ++ k :: ks2 →
      (∀ k' ∈ ks1, freshHit now st k' = none) →
      freshHit now st k = some r →
      get_by_any_id now st name gs s2 orcid pubs = r) ∧
    ((∀ k ∈ (if gs ≠ "" then ["gs:" ++ gs] else []) ++
        (if s2 ≠ "" then ["s2:" ++ s2] else []) ++
        (if orcid ≠ "" then ["orcid:" ++ orcid] else []) ++
        (if name ≠ "" then ["name:" ++ normalize_name name] else []) ++
        (if pubs ≠ [] then get_publication_keys pubs else []),
        freshHit now st k = none) →
      get_by_any_id now st name gs s2 orcid pubs = none) ∧
    (∀ key, alookup st.index key = none → freshHit now st key = none) ∧
    (∀ key fn, alookup st.index key = some fn → alookup st.files fn = none →
      freshHit now st key = none) ∧
    (∀ key fn, alookup st.index key = some fn → alookup st.files fn = some none →
      freshHit now st key = none) ∧
    (∀ key fn pf, alookup st.index key = some fn →
      alookup st.files fn = some (some pf) →
      freshHit now st key =
        (if now - pf.cachedAt ≤ maxAgeSeconds then some pf.authorInfo else none)) ∧
    (∀ filename pf, alookup st.files filename = some (some pf) →
      cache_get now st filename =
        (if now - pf.cachedAt ≤ maxAgeSeconds then (some pf, st)
         else (none, { st with files := aerase st.files filename }))) := by
  refine ⟨?_, ?_, ?_, ?_, ?_, ?_, ?_⟩
  · intro ks1 k ks2 r hsplit hnone hk
    unfold get_by_any_id gbaiKeys
    rw [hsplit, findSome?_skip_none _ ks1 hnone, List.findSome?_cons, hk]
    rfl
  · intro hall
    unfold get_by_any_id gbaiKeys
    rw [List.findSome?_eq_none_iff.mpr hall]
    rfl
  · intro key h
    unfold freshHit
    rw [h]
  · intro key fn h1 h2
    unfold freshHit
    rw [h1]
    dsimp only
    rw [h2]
  · intro key fn h1 h2
    unfold freshHit
    rw [h1]
    dsimp only
    rw [h2]
  · intro key fn pf h1 h2
    unfold freshHit
    rw [h1]
    dsimp only
    rw [h2]
  · intro filename pf h
    unfold cache_get
    rw [h]

set_option maxRecDepth 40000 in
/-- Claim C3, witness: at `now = 2592005` the `gs:` hit is 2592005 seconds
old (expired, ttl 2592000 s = 30 days) so the scan continues to the fresh
`name:` entry; the legacy direct-key `get` deletes the expired file. -/
theorem get_by_any_id_spec_witness :
    get_by_any_id 2592005 c3State "carol davis" "GSID1" "" "" [] = some c3InfoNew ∧
    cache_get 2592005 c3State "old.json" =
      (none, { c3State with files := aerase c3State.files "old.json" }) := by
  have h := get_by_any_id_spec 2592005 c3State "carol davis" "GSID1" "" "" []
  constructor
  · exact h.1 ["gs:GSID1"] "name:carol davis" [] (some c3InfoNew)
      (by decide) (by decide) (by decide)
  · rw [h.2.2.2.2.2.2 "old.json" ⟨0, some c3InfoOld, []⟩ (by decide),
      if_neg (by decide)]

/-! ### Claim C7: the content-addressed profile filename -/

theorem alookup_cons {α : Type} (p : String × α) (l : List (String × α)) (k : String) :
    alookup (p :: l) k = if p.1 = k then some p.2 else alookup l k := by
  unfold alookup
  by_cases hp : p.1 = k
  · rw [List.find?_cons_of_pos _ (by simpa using hp), if_pos hp]
    rfl
  · rw [List.find?_cons_of_neg _ (by simpa using hp), if_neg hp]

theorem alookup_ainsert {α : Type} (l : List (String × α)) (k : String) (v : α) :
    alookup (ainsert l k v) k = some v := by
  unfold ainsert
  by_cases hany : l.any (fun p => decide (p.1 = k))
  · rw [if_pos hany]
    induction l with
    | nil => simp at hany
    | cons p ps ih =>
      by_cases hp : p.1 = k
      · rw [List.map_cons, if_pos hp, alookup_cons, if_pos rfl]
      · have hany2 : ps.any (fun p => decide (p.1 = k)) := by
          rcases List.any_eq_true.mp hany with ⟨q, hq, hqk⟩
          rcases List.mem_cons.mp hq with rfl | hq
          · exact absurd (of_decide_eq_true hqk) hp
          · exact List.any_eq_true.mpr ⟨q, hq, hqk⟩
        rw [List.map_cons, if_neg hp, alookup_cons, if_neg hp]
        exact ih hany2
  · rw [if_neg hany]
    induction l with
    | nil => rw [List.nil_append, alookup_cons, if_pos rfl]
    | cons p ps ih =>
      have hp : ¬ p.1 = k := by
        intro hEq
        exact hany (List.any_eq_true.mpr ⟨p, by simp, by simp [hEq]⟩)
      have hany2 : ¬ ps.any (fun p => decide (p.1 = k)) := by
        intro h2
        rcases List.any_eq_true.mp h2 with ⟨q, hq, hqk⟩
        exact hany (List.any_eq_true.mpr ⟨q, by simp [hq], hqk⟩)
      rw [List.cons_append, alookup_cons, if_neg hp]
      exact ih hany2

theorem alookup_ainsert_ne {α : Type} (l : List (String × α)) (k : String) (v : α)
    (k' : String) (h : k' ≠ k) :
    alookup (ainsert l k v) k' = alookup l k' := by
  unfold ainsert
  by_cases hany : l.any (fun p => decide (p.1 = k))
  · rw [if_pos hany]
    clear hany
    induction l with
    | nil => rfl
    | cons p ps ih =>
      by_cases hp : p.1 = k
      · rw [List.map_cons, if_pos hp, alookup_cons, alookup_cons,
          if_neg (fun hEq => h hEq.symm), if_neg (fun hEq => h (hp ▸ hEq).symm)]
        exact ih
      · rw [List.map_cons, if_neg hp, alookup_cons, alookup_cons]
        by_cases hp2 : p.1 = k'
        · rw [if_pos hp2, if_pos hp2]
        · rw [if_neg hp2, if_neg hp2]
          exact ih
  · rw [if_neg hany]
    clear hany
    induction l with
    | nil =>
      rw [List.nil_append, alookup_cons, if_neg (fun hEq => h hEq.symm)]
    | cons p ps ih =>
      rw [List.cons_append, alookup_cons, alookup_cons]
      by_cases hp2 : p.1 = k'
      · rw [if_pos hp2, if_pos hp2]
      · rw [if_neg hp2, if_neg hp2]
        exact ih

theorem foldl_ainsert_lookup (fname : String) (keys : List String) :
    ∀ (ix : List (String × String)) (k : String),
    alookup (keys.foldl (fun ix k => ainsert ix k fname) ix) k =
      if k ∈ keys then some fname else alookup ix k := by
  induction keys with
  | nil =>
    intro ix k
    simp
  | cons k0 ks ih =>
    intro ix k
    rw [List.foldl_cons, ih]
    by_cases hks : k ∈ ks
    · rw [if_pos hks, if_pos (by simp [hks])]
    · rw [if_neg hks]
      by_cases hk0 : k = k0
      · subst hk0
        rw [alookup_ainsert, if_pos (by simp)]
      · rw [alookup_ainsert_ne _ _ _ _ hk0, if_neg (by simp [hk0, hks])]

/-- Claim C7 (amended): the profile filename is content-addressed over the
post-merge record — `update_profile` serialises the merged `author_info`
(`json.dumps(..., sort_keys=True)`), hashes it, and writes the file under
that name; every lookup key and publication key of this update is repointed
at the new filename, while every other index key keeps its previous mapping
(so keys written by earlier updates may still point at stale files). -/
theorem update_profile_filename_spec (now : Int) (st : CacheState)
    (info : AuthorInfo) (pubs : List Publication) :
    updateFilename now st info pubs =
      "profile_" ++ md5hex12 (jsonDump (mergedInfo now st info pubs)) ++ ".json" ∧
    alookup (update_profile now st info pubs).files (updateFilename now st info pubs) =
      some (some ⟨now, some (mergedInfo now st info pubs), storedTitles pubs⟩) ∧
    (∀ k, alookup (update_profile now st info pubs).index k =
      if k ∈ get_lookup_keys (mergedInfo now st info pubs) ++ get_publication_keys pubs
      then some (updateFilename now st info pubs) else alookup st.index k) := by
  refine ⟨rfl, ?_, ?_⟩
  · unfold update_profile
    exact alookup_ainsert _ _ _
  · intro k
    unfold update_profile
    exact foldl_ainsert_lookup _ _ _ _

set_option maxRecDepth 100000 in
/-- Claim C7, counterexample: writing `c7Info1` into an empty cache and then
re-merging the same author with different incoming data (`c7Info2`) produces
the SAME filename (the merge keeps the stored record unchanged), whereas a
filename derived from the pre-merge snapshot of the incoming dict would have
to differ, since the two serialisations differ. -/
theorem c7_filename_from_merged_not_incoming :
    updateFilename 0 (update_profile 0 ⟨[], []⟩ c7Info1 []) c7Info2 [] =
      updateFilename 0 ⟨[], []⟩ c7Info1 [] ∧
    jsonDump c7Info2 ≠ jsonDump c7Info1 ∧
    updateFilename 0 (update_profile 0 ⟨[], []⟩ c7Info1 []) c7Info2 [] ≠
      "profile_" ++ md5hex12 (jsonDump c7Info2) ++ ".json" := by
  refine ⟨?_, ?_, ?_⟩ <;> decide

/-- Fixed-point property of the strip-free pipeline of
`hybrid._normalize_title`. -/
theorem pipeline_fixed_nostrip (q : Char → Bool) (hsp : q ' ' = true)
    (ws : List (List Char))
    (hgood : ∀ w ∈ ws, w ≠ [] ∧ ∀ c ∈ w, isPySpace c = false)
    (hchar : ∀ w ∈ ws, ∀ c ∈ w, c.toLower = c ∧ q c = true) :
    pySplit ((pyLower (joinSpace ws)).filter q) = ws := by
  have hstable : ∀ c ∈ joinSpace ws, c.toLower = c := by
    intro c hc
    rcases mem_joinSpace ws c hc with ⟨w, hw, hcw⟩ | rfl
    · exact (hchar w hw c hcw).1
    · decide
  have hkeep : ∀ c ∈ joinSpace ws, q c = true := by
    intro c hc
    rcases mem_joinSpace ws c hc with ⟨w, hw, hcw⟩ | rfl
    · exact (hchar w hw c hcw).2
    · exact hsp
  rw [show pyLower (joinSpace ws) = joinSpace ws from map_eq_self_of_stable _ hstable,
    List.filter_eq_self.mpr hkeep, pySplit_joinSpace ws hgood]

theorem normalizeTitleHL_idem (l : List Char) :
    normalizeTitleHL (normalizeTitleHL l) = normalizeTitleHL l := by
  have hgood : ∀ w ∈ pySplit ((pyLower l).filter titleKeep),
      w ≠ [] ∧ ∀ c ∈ w, isPySpace c = false := by
    intro w hw
    have h := pySplitGo_mem ((pyLower l).filter titleKeep) [] (by simp) w hw
    exact ⟨h.1, fun c hc => (h.2 c hc).1⟩
  have hchar : ∀ w ∈ pySplit ((pyLower l).filter titleKeep),
      ∀ c ∈ w, c.toLower = c ∧ titleKeep c = true := by
    intro w hw c hc
    have h := pySplitGo_mem ((pyLower l).filter titleKeep) [] (by simp) w hw
    have hm := (h.2 c hc).2
    simp only [List.not_mem_nil, or_false] at hm
    have hq : titleKeep c = true := (List.mem_filter.mp hm).2
    obtain ⟨c₀, _, rfl⟩ := List.mem_map.mp (List.mem_filter.mp hm).1
    exact ⟨toLower_idem c₀, hq⟩
  show joinSpace (pySplit ((pyLower
    (joinSpace (pySplit ((pyLower l).filter titleKeep)))).filter titleKeep)) = _
  rw [pipeline_fixed_nostrip titleKeep (by decide) _ hgood hchar]
  rfl

theorem hybrid_normalize_title_idem (s : String) :
    hybrid_normalize_title (hybrid_normalize_title s) = hybrid_normalize_title s := by
  unfold hybrid_normalize_title
  by_cases hs : s.isEmpty
  · rw [if_pos hs, if_pos (by decide)]
  · simp only [hs, Bool.false_eq_true, if_false]
    by_cases h2 : (String.mk (normalizeTitleHL s.data)).isEmpty
    · rw [if_pos h2]
      exact ((String.isEmpty_iff _).mp h2).symm
    · rw [if_neg h2]
      exact congrArg String.mk (normalizeTitleHL_idem s.data)

/-- `_titles_match` only depends on the normalised titles: pre-normalising
the first argument changes nothing. -/
theorem titles_match_norm_left (x y : String) (t : ℚ) :
    titles_match (hybrid_normalize_title x) y t = titles_match x y t := by
  unfold titles_match
  rw [hybrid_normalize_title_idem]

theorem titles_match_norm_right (x y : String) (t : ℚ) :
    titles_match x (hybrid_normalize_title y) t = titles_match x y t := by
  unfold titles_match
  rw [hybrid_normalize_title_idem]

/-! ### Claim C9: symmetry of `_titles_match` -/

set_option maxRecDepth 100000 in
theorem totalMatched_c9_forward : totalMatched "aaabaa".data "abaababa".data = 6 := by
  decide

set_option maxRecDepth 100000 in
theorem totalMatched_c9_backward : totalMatched "abaababa".data "aaabaa".data = 4 := by
  decide

theorem smRatio_c9_forward : smRatio "aaabaa".data "abaababa".data = 6/7 := by
  unfold smRatio
  rw [if_neg (by decide), totalMatched_c9_forward,
    show ("aaabaa".data : List Char).length = 6 from rfl,
    show ("abaababa".data : List Char).length = 8 from rfl]
  norm_num

theorem smRatio_c9_backward : smRatio "abaababa".data "aaabaa".data = 4/7 := by
  unfold smRatio
  rw [if_neg (by decide), totalMatched_c9_backward,
    show ("abaababa".data : List Char).length = 8 from rfl,
    show ("aaabaa".data : List Char).length = 6 from rfl]
  norm_num

set_option maxRecDepth 100000 in
/-- Claim C9, counterexample: `SequenceMatcher.ratio` is order-dependent —
`ratio("aaabaa", "abaababa") = 6/7 ≈ 0.857` but
`ratio("abaababa", "aaabaa") = 4/7 ≈ 0.571` — so at the default threshold
`0.85` the titles match one way round and not the other. -/
theorem titles_match_not_symmetric :
    titles_match "aaabaa" "abaababa" (85/100) = true ∧
    titles_match "abaababa" "aaabaa" (85/100) = false := by
  have hn1 : hybrid_normalize_title "aaabaa" = "aaabaa" := by decide
  have hn2 : hybrid_normalize_title "abaababa" = "abaababa" := by decide
  constructor
  · unfold titles_match
    rw [hn1, hn2, if_neg (by decide), if_neg (by decide), smRatio_c9_forward]
    rw [show (decide ((6 : ℚ)/7 ≥ 85/100) : Bool) = true from by
      rw [decide_eq_true_eq]
      norm_num]
  · unfold titles_match
    rw [hn1, hn2, if_neg (by decide), if_neg (by decide), smRatio_c9_backward]
    rw [show (decide ((4 : ℚ)/7 ≥ 85/100) : Bool) = false from by
      rw [decide_eq_false_iff_not]
      norm_num]

/-- Claim C9 (amended): `_titles_match` is symmetric whenever the two
normalised titles are equal or either normalisation is empty (the exact-match
and emptiness paths); on the fuzzy path it inherits the order dependence of
`SequenceMatcher.ratio`, so full symmetry fails (see the counterexample). -/
theorem titles_match_symm_on_exact (a b : String) (t : ℚ)
    (h : hybrid_normalize_title a = hybrid_normalize_title b ∨
      hybrid_normalize_title a = "" ∨ hybrid_normalize_title b = "") :
    titles_match a b t = titles_match b a t := by
  unfold titles_match
  have he : ("" : String).isEmpty = true := rfl
  rcases h with h | h | h
  · rw [h]
  · rw [h]
    simp [he]
  · rw [h]
    simp [he]

/-- Claim C9, witness: two titles with equal normalisations match
symmetrically. -/
theorem titles_match_symm_on_exact_witness :
    titles_match "The Cat" "the cat!" (85/100) = titles_match "the cat!" "The Cat" (85/100) ∧
    titles_match "The Cat" "the cat!" (85/100) = true :=
  ⟨titles_match_symm_on_exact _ _ _ (Or.inl (by decide)), by decide⟩

/-- Claim C4, counterexample: when the primary source finds a paper with
only 5 citations (below the 10 threshold), the secondary source is NOT
tried — the claim's "otherwise the secondary (scraped) source is tried" is
false; the low-citation primary hit is returned untouched. -/
theorem c4_secondary_not_tried_on_low_citation_hit :
    (search_paper (some c4LowPaper) true (some c4GsPaper)).2 = false ∧
    (search_paper (some c4LowPaper) true (some c4GsPaper)).1 = some c4LowPaper ∧
    c4LowPaper.citationCount < 10 := by
  refine ⟨?_, ?_, ?_⟩ <;> decide

/-- Claim C4 (amended): the primary result is accepted whenever it reports
at least 10 citations; the secondary source is queried exactly when the
primary found nothing at all and a secondary client is available; a primary
hit — even one below the threshold — is never displaced; when the primary
found nothing, a secondary hit is returned, and `None` otherwise. -/
theorem search_paper_spec (s2 : Option Paper) (gsAvail : Bool) (gs : Option Paper) :
    (∀ p, s2 = some p → 10 ≤ p.citationCount →
      search_paper s2 gsAvail gs = (some p, false)) ∧
    ((search_paper s2 gsAvail gs).2 = true ↔ s2 = none ∧ gsAvail = true) ∧
    (∀ p, s2 = some p → (search_paper s2 gsAvail gs).1 = some p) ∧
    (∀ g, s2 = none → gsAvail = true → gs = some g →
      search_paper s2 gsAvail gs = (some g, true)) ∧
    (s2 = none → gsAvail = true → gs = none → search_paper s2 gsAvail gs = (none, true)) ∧
    (s2 = none → gsAvail = false → search_paper s2 gsAvail gs = (none, false)) := by
  refine ⟨?_, ?_, ?_, ?_, ?_, ?_⟩
  · rintro p rfl hp
    unfold search_paper
    dsimp only
    rw [if_pos hp]
  · match s2 with
    | some p =>
      unfold search_paper
      constructor
      · intro h2
        by_cases hp : p.citationCount ≥ 10 <;> simp [hp] at h2
      · rintro ⟨h1, _⟩
        cases h1
    | none =>
      unfold search_paper
      match gsAvail with
      | true =>
        match gs with
        | some g => simp
        | none => simp
      | false => simp
  · rintro p rfl
    unfold search_paper
    dsimp only
    by_cases hp : p.citationCount ≥ 10
    · rw [if_pos hp]
    · rw [if_neg hp]
  · rintro g rfl rfl rfl
    rfl
  · rintro rfl rfl rfl
    rfl
  · rintro rfl rfl
    rfl

/-- Claim C4, witness: a primary hit with 50 citations is accepted without
touching the secondary; with no primary hit the secondary result is used. -/
theorem search_paper_spec_witness :
    search_paper (some c4GsPaper) true none = (some c4GsPaper, false) ∧
    search_paper none true (some c4GsPaper) = (some c4GsPaper, true) ∧
    search_paper (some c4LowPaper) true (some c4GsPaper) = (some c4LowPaper, false) := by
  refine ⟨(search_paper_spec (some c4GsPaper) true none).1 c4GsPaper rfl (by decide), ?_, ?_⟩
  · exact (search_paper_spec none true (some c4GsPaper)).2.2.2.1 c4GsPaper rfl rfl rfl
  · have h1 := (search_paper_spec (some c4LowPaper) true (some c4GsPaper)).2.2.1
      c4LowPaper rfl
    have h2 := (search_paper_spec (some c4LowPaper) true (some c4GsPaper)).2.1
    refine Prod.ext h1 ?_
    by_cases hq : (search_paper (some c4LowPaper) true (some c4GsPaper)).2 = true
    · rcases h2.mp hq with ⟨h3, _⟩
      cases h3
    · simpa using hq

theorem mergeGsStep_inv (primary : List Citation) (limit : Nat)
    (acc : List Citation × List String) (g : Citation)
    (hacc : mergeInv primary limit acc) :
    mergeInv primary limit (mergeGsStep limit acc g) ∧
    ((mergeGsStep limit acc g).1 = acc.1 ∨ (mergeGsStep limit acc g).1 = acc.1 ++ [g]) := by
  obtain ⟨⟨app, happ, hdedup⟩, hsnd, hlen⟩ := hacc
  unfold mergeGsStep
  by_cases hcond : ¬ (acc.2.any (fun seen => titles_match (citNorm g) seen (85/100))) ∧
      acc.1.length < limit
  · rw [if_pos hcond]
    refine ⟨⟨⟨app ++ [g], by rw [happ, List.append_assoc], ?_⟩, ?_, ?_⟩, Or.inr rfl⟩
    · intro g' hg' p hp
      rcases List.mem_append.mp hg' with hg' | hg'
      · exact hdedup g' hg' p hp
      · rw [List.mem_singleton.mp hg']
        have hseen : citNorm p ∈ acc.2 := by
          rw [hsnd, happ]
          exact List.mem_map.mpr ⟨p, List.mem_append_left _ hp, rfl⟩
        have := List.any_eq_false.mp (Bool.of_not_eq_true hcond.1) (citNorm p) hseen
        simpa using this
    · simp [hsnd, List.map_append]
    · simp only [List.length_append, List.length_singleton]
      have := hcond.2
      omega
  · rw [if_neg hcond]
    exact ⟨⟨⟨app, happ, hdedup⟩, hsnd, hlen⟩, Or.inl rfl⟩

theorem mergeGs_fold_inv (primary : List Citation) (limit : Nat) :
    ∀ (gs : List Citation) (acc : List Citation × List String),
    mergeInv primary limit acc →
    mergeInv primary limit (gs.foldl (mergeGsStep limit) acc) ∧
    ∃ app2, (gs.foldl (mergeGsStep limit) acc).1 = acc.1 ++ app2 ∧
      ∀ g ∈ app2, g ∈ gs := by
  intro gs
  induction gs with
  | nil =>
    intro acc hacc
    exact ⟨hacc, [], by simp, by simp⟩
  | cons g gs ih =>
    intro acc hacc
    rw [List.foldl_cons]
    obtain ⟨hinv1, hcases⟩ := mergeGsStep_inv primary limit acc g hacc
    obtain ⟨hinv2, app2, happ2, hmem2⟩ := ih (mergeGsStep limit acc g) hinv1
    refine ⟨hinv2, ?_⟩
    rcases hcases with hc | hc
    · exact ⟨app2, by rw [happ2, hc], fun g' h => List.mem_cons_of_mem _ (hmem2 g' h)⟩
    · refine ⟨g :: app2, ?_, ?_⟩
      · rw [happ2, hc, List.append_assoc]
        rfl
      · intro g' h
        rcases List.mem_cons.mp h with rfl | h
        · exact List.mem_cons_self _ _
        · exact List.mem_cons_of_mem _ (hmem2 g' h)

/-- Claim C5: the merged citation list keeps the primary citations as a
prefix, appends only secondary citations, never grows past the requested
limit in secondary additions (and not at all if the primary already fills
it), keeps the seen set equal to the normalised titles of the list, and no
appended secondary citation's title `titles_match`-es any primary title. -/
theorem get_citations_merge_spec (primary secondary : List Citation) (limit : Nat) :
    ((get_citations_merge primary secondary limit).1).take primary.length = primary ∧
    (∀ g ∈ ((get_citations_merge primary secondary limit).1).drop primary.length,
      g ∈ secondary) ∧
    (get_citations_merge primary secondary limit).1.length ≤ max primary.length limit ∧
    (limit ≤ primary.length → (get_citations_merge primary secondary limit).1 = primary) ∧
    (get_citations_merge primary secondary limit).2 =
      ((get_citations_merge primary secondary limit).1).map citNorm ∧
    (∀ g ∈ ((get_citations_merge primary secondary limit).1).drop primary.length,
      ∀ p ∈ primary,
        titles_match g.citing_paper_title p.citing_paper_title (85/100) = false) := by
  have hinit : mergeInv primary limit (primary, primary.map citNorm) := by
    refine ⟨⟨[], by simp, by simp⟩, rfl, ?_⟩
    exact le_max_left _ _
  obtain ⟨⟨⟨app, happ, hdedup⟩, hsnd, hlen⟩, app2, happ2, hmem2⟩ :=
    mergeGs_fold_inv primary limit secondary (primary, primary.map citNorm) hinit
  have happeq : app = app2 := by
    apply List.append_cancel_left
    show primary ++ app = primary ++ app2
    rw [← happ]
    exact happ2
  subst happeq
  unfold get_citations_merge
  constructor
  · rw [happ, List.take_left]
  refine ⟨?_, hlen, ?_, hsnd, ?_⟩
  · intro g hg
    rw [happ, List.drop_left] at hg
    exact hmem2 g hg
  · intro hle
    rw [happ]
    have h1 : (primary ++ app).length ≤ max primary.length limit := by
      rw [← happ]
      exact hlen
    rw [List.length_append, Nat.max_eq_left hle] at h1
    have h2 : app = [] := List.eq_nil_of_length_eq_zero (by omega)
    rw [h2, List.append_nil]
  · intro g hg p hp
    rw [happ, List.drop_left] at hg
    have h1 := hdedup g hg p hp
    rw [← titles_match_norm_left g.citing_paper_title p.citing_paper_title,
      ← titles_match_norm_right (hybrid_normalize_title g.citing_paper_title)
        p.citing_paper_title]
    exact h1

set_option maxRecDepth 40000 in
/-- Claim C5, witness: a secondary citation whose normalised title equals a
primary one is dropped, a fresh one is appended, and when the primary list
already fills the limit nothing is appended. -/
theorem get_citations_merge_spec_witness :
    (get_citations_merge [mkCit "abc"] [mkCit "abc!", mkCit "???"] 5).1 =
      [mkCit "abc", mkCit "???"] ∧
    (get_citations_merge [mkCit "abc"] [mkCit "???"] 1).1 = [mkCit "abc"] := by
  constructor
  · decide
  · exact (get_citations_merge_spec [mkCit "abc"] [mkCit "???"] 1).2.2.2.1 (by decide)

theorem errorMessageFor_ne_empty (dataSource : String) (lastError : Option String) :
    errorMessageFor dataSource lastError ≠ "" := by
  unfold errorMessageFor
  by_cases hds : dataSource = "google_scholar"
  · rw [if_pos hds]
    decide
  · rw [if_neg hds]
    match lastError with
    | none => decide
    | some e =>
      dsimp only
      by_cases he : e = ""
      · rw [if_pos he]
        decide
      · rw [if_neg he]
        exact he

/-- Claim C6: when paper resolution fails, `analyze_paper` returns the full
canonical empty-result structure: a non-empty `error` string, zero
`analyzed_citations`, empty author lists, all institution, venue and
impact-stats counts zero — with exactly the same (nested) key structure as a
successful analysis, never a "short" shape. -/
theorem analyze_paper_not_found_spec (dataSource : String) (lastError : Option String)
    (paperTitle : String) (citations : List Citation)
    (totalCitations influentialCitations analyzedCount : JVal)
    (a1 a2 a3 a4 a5 a6 a7 : JVal) (v1 v2 v3 v4 v5 v6 : JVal) (f1 f2 : JVal) (y1 : JVal)
    (m1 m2 m3 m4 m5 m6 m7 m8 m9 m10 m11 m12 m13 m14 m15 m16 m17 m18 m19 : JVal) :
    analyze_paper dataSource lastError paperTitle none citations
        totalCitations influentialCitations analyzedCount
        (analyzeAuthorsResult a1 a2 a3 a4 a5 a6 a7)
        (analyzeVenuesResult v1 v2 v3 v4 v5 v6)
        (analyzeInfluenceResult f1 f2)
        (analyzeYearsResult y1)
        (impactStatsResult m1 m2 m3 m4 m5 m6 m7 m8 m9 m10 m11 m12 m13 m14 m15 m16 m17
          m18 m19) =
      empty_result paperTitle (errorMessageFor dataSource lastError) 0 0 ∧
    errorMessageFor dataSource lastError ≠ "" ∧
    jGet (empty_result paperTitle (errorMessageFor dataSource lastError) 0 0) "error" =
      some (.s (errorMessageFor dataSource lastError)) ∧
    jGet (empty_result paperTitle (errorMessageFor dataSource lastError) 0 0)
      "analyzed_citations" = some (.i 0) ∧
    jGet (empty_result paperTitle (errorMessageFor dataSource lastError) 0 0)
      "all_authors" = some (.arr []) ∧
    jGet (empty_result paperTitle (errorMessageFor dataSource lastError) 0 0)
      "high_profile_scholars" = some (.arr []) ∧
    jGet (empty_result paperTitle (errorMessageFor dataSource lastError) 0 0)
      "institutions" = some (.obj [("University", .i 0), ("Industry", .i 0),
        ("Government", .i 0), ("Other", .i 0), ("details", .obj [])]) ∧
    jGet (empty_result paperTitle (errorMessageFor dataSource lastError) 0 0)
      "venues" = some (.obj [("total", .i 0), ("unique", .i 0), ("top_tier_count", .i 0),
        ("top_tier_percentage", .q 0), ("most_common", .arr []), ("rankings", .obj [])]) ∧
    jGet (empty_result paperTitle (errorMessageFor dataSource lastError) 0 0)
      "impact_stats" = some (.obj [
        ("highly_cited_citing_papers", .arr []),
        ("citation_thresholds", .obj [("over_1000", .i 0), ("over_500", .i 0),
          ("over_100", .i 0), ("over_50", .i 0)]),
        ("author_stats", .obj [("total_unique_authors", .i 0),
          ("high_profile_count", .i 0), ("max_h_index", .i 0), ("avg_h_index", .i 0),
          ("h_over_50", .i 0), ("h_over_30", .i 0), ("h_over_20", .i 0)]),
        ("institution_stats", .obj [("university_percentage", .i 0),
          ("industry_percentage", .i 0), ("from_qs_top_50", .i 0),
          ("from_qs_top_100", .i 0), ("from_qs_top_200", .i 0)]),
        ("recent_citations_count", .i 0),
        ("summary_statements", .arr [])]) ∧
    jKeys (empty_result paperTitle (errorMessageFor dataSource lastError) 0 0) =
      jKeys (analyzeResultSuccess paperTitle totalCitations influentialCitations
        analyzedCount (analyzeAuthorsResult a1 a2 a3 a4 a5 a6 a7)
        (analyzeVenuesResult v1 v2 v3 v4 v5 v6) (analyzeInfluenceResult f1 f2)
        (analyzeYearsResult y1) (impactStatsResult m1 m2 m3 m4 m5 m6 m7 m8 m9 m10 m11
          m12 m13 m14 m15 m16 m17 m18 m19)) ∧
    ((jGet (analyzeResultSuccess paperTitle totalCitations influentialCitations
        analyzedCount (analyzeAuthorsResult a1 a2 a3 a4 a5 a6 a7)
        (analyzeVenuesResult v1 v2 v3 v4 v5 v6) (analyzeInfluenceResult f1 f2)
        (analyzeYearsResult y1) (impactStatsResult m1 m2 m3 m4 m5 m6 m7 m8 m9 m10 m11
          m12 m13 m14 m15 m16 m17 m18 m19)) "institutions").map jKeys =
      (jGet (empty_result paperTitle (errorMessageFor dataSource lastError) 0 0)
        "institutions").map jKeys) ∧
    ((jGet (analyzeResultSuccess paperTitle totalCitations influentialCitations
        analyzedCount (analyzeAuthorsResult a1 a2 a3 a4 a5 a6 a7)
        (analyzeVenuesResult v1 v2 v3 v4 v5 v6) (analyzeInfluenceResult f1 f2)
        (analyzeYearsResult y1) (impactStatsResult m1 m2 m3 m4 m5 m6 m7 m8 m9 m10 m11
          m12 m13 m14 m15 m16 m17 m18 m19)) "venues").map jKeys =
      (jGet (empty_result paperTitle (errorMessageFor dataSource lastError) 0 0)
        "venues").map jKeys) ∧
    ((jGet (analyzeResultSuccess paperTitle totalCitations influentialCitations
        analyzedCount (analyzeAuthorsResult a1 a2 a3 a4 a5 a6 a7)
        (analyzeVenuesResult v1 v2 v3 v4 v5 v6) (analyzeInfluenceResult f1 f2)
        (analyzeYearsResult y1) (impactStatsResult m1 m2 m3 m4 m5 m6 m7 m8 m9 m10 m11
          m12 m13 m14 m15 m16 m17 m18 m19)) "impact_stats").map jKeys =
      (jGet (empty_result paperTitle (errorMessageFor dataSource lastError) 0 0)
        "impact_stats").map jKeys) := by
  refine ⟨rfl, errorMessageFor_ne_empty dataSource lastError,
    rfl, rfl, rfl, rfl, rfl, rfl, rfl, rfl, rfl, rfl, rfl⟩

end CitationImpact
